import Mathlib

/-!
Verification of the gutenberg_wikipedia_summaries pipeline scripts.

Shallow embedding of the four Python source files:
  get_wiki_articles.py      (primary fetch pipeline)       — namespace GetWiki
  retry_failed.py           (retry pipeline w/ diagnostics) — namespace RetryFailed
  validate_wiki_articles.py (LLM validation pipeline)       — namespace ValidateWiki
  add_urls_to_results.py    (URL back-fill utility)         — namespace AddUrls

Machine integers are Nat, Python dicts are association lists preserving
insertion order, fallible code returns Option/Except, and the network is an
explicit response script passed to the fetch adapters.
-/

set_option maxRecDepth 10000

/-! ### Decimal rendering of natural numbers (Python `str(n)` / f-string) -/

/-- The character for one decimal digit. -/
def decDigitChar (d : Nat) : Char :=
  if d = 0 then '0' else if d = 1 then '1' else if d = 2 then '2'
  else if d = 3 then '3' else if d = 4 then '4' else if d = 5 then '5'
  else if d = 6 then '6' else if d = 7 then '7' else if d = 8 then '8'
  else if d = 9 then '9' else '*'

/-- Decimal digit list of `n`, most significant first; `fuel` bounds recursion
so the definition is structural (any `fuel > n` gives the true digit list). -/
def toDecAux : Nat → Nat → List Char
  | 0, _ => []
  | fuel+1, n =>
    if n < 10 then [decDigitChar n]
    else toDecAux fuel (n / 10) ++ [decDigitChar (n % 10)]

/-- Decimal rendering of a natural number, as Python `str` produces it. -/
def natToString (n : Nat) : String := String.mk (toDecAux (n+1) n)

/-- Numeric value of a decimal digit character. -/
def decCharVal (c : Char) : Nat := c.toNat - 48

/-- Value of a digit list read most-significant-first. -/
def decListVal (cs : List Char) : Nat :=
  cs.foldl (fun a c => 10 * a + decCharVal c) 0

/-- Is `c` an ASCII decimal digit? (`\d` on these inputs, `str.isdigit`). -/
def isDigitChar (c : Char) : Bool := 48 ≤ c.toNat && c.toNat ≤ 57

theorem decCharVal_decDigitChar {d : Nat} (h : d < 10) :
    decCharVal (decDigitChar d) = d := by
  interval_cases d <;> rfl

theorem isDigitChar_decDigitChar {d : Nat} (h : d < 10) :
    isDigitChar (decDigitChar d) = true := by
  interval_cases d <;> rfl

theorem decListVal_append_singleton (cs : List Char) (c : Char) :
    decListVal (cs ++ [c]) = 10 * decListVal cs + decCharVal c := by
  simp [decListVal, List.foldl_append]

theorem decListVal_toDecAux : ∀ fuel n, n < fuel →
    decListVal (toDecAux fuel n) = n := by
  intro fuel
  induction fuel with
  | zero => omega
  | succ f ih =>
    intro n hn
    by_cases h10 : n < 10
    · simp [toDecAux, h10, decListVal, decCharVal_decDigitChar h10]
    · have hdiv : n / 10 < f := by omega
      simp only [toDecAux, if_neg h10, decListVal_append_singleton, ih _ hdiv,
        decCharVal_decDigitChar (Nat.mod_lt n (by omega))]
      omega

theorem toDecAux_all_digits : ∀ fuel n, ∀ c ∈ toDecAux fuel n,
    isDigitChar c = true := by
  intro fuel
  induction fuel with
  | zero => intro n c hc; simp [toDecAux] at hc
  | succ f ih =>
    intro n c hc
    by_cases h10 : n < 10
    · simp [toDecAux, h10] at hc
      subst hc; exact isDigitChar_decDigitChar h10
    · simp [toDecAux, h10] at hc
      rcases hc with hc | hc
      · exact ih _ _ hc
      · subst hc; exact isDigitChar_decDigitChar (Nat.mod_lt n (by omega))

theorem natToString_injective : Function.Injective natToString := by
  intro m n h
  have hdata : toDecAux (m+1) m = toDecAux (n+1) n := congrArg String.data h
  have := congrArg decListVal hdata
  rwa [decListVal_toDecAux _ _ (Nat.lt_succ_self m),
    decListVal_toDecAux _ _ (Nat.lt_succ_self n)] at this

theorem natToString_all_digits (n : Nat) :
    ∀ c ∈ (natToString n).data, isDigitChar c = true := by
  intro c hc
  exact toDecAux_all_digits (n+1) n c hc

theorem natToString_ne_nil (n : Nat) : (natToString n).data ≠ [] := by
  by_cases h10 : n < 10 <;> simp [natToString, toDecAux, h10]

/-! ### find_wikipedia_url (validate_wiki_articles.py lines 112-130; the same
function appears verbatim in add_urls_to_results.py lines 39-57).

The URL mapping (a Python dict `book_id -> [(url, lang)]`) is an association
list; `none` models the `IndexError` raised by `urls[0]` on an empty
candidate list. -/

/-- `find_wikipedia_url` from validate_wiki_articles.py / add_urls_to_results.py. -/
def find_wikipedia_url (url_mapping : List (String × List (String × String)))
    (book_id language : String) : Option String :=
  match url_mapping.lookup book_id with
  | none => some "URL_NOT_FOUND"
  | some urls =>
    if urls.length = 1 then (urls.head?).map Prod.fst
    else
      match urls.find? (fun p => p.2 == language) with
      | some p => some p.1
      | none => (urls.head?).map Prod.fst

/-- C5: `find_wikipedia_url` returns the sentinel for unknown book ids, the
single candidate unconditionally, the first language-matching candidate
otherwise, and falls back to the first candidate when no language matches. -/
theorem find_wikipedia_url_spec (m : List (String × List (String × String)))
    (book_id language : String) :
    (m.lookup book_id = none →
      find_wikipedia_url m book_id language = some "URL_NOT_FOUND") ∧
    (∀ u l, m.lookup book_id = some [(u, l)] →
      find_wikipedia_url m book_id language = some u) ∧
    (∀ urls, m.lookup book_id = some urls → 2 ≤ urls.length →
      ((∃ p, urls.find? (fun q => q.2 == language) = some p ∧
          find_wikipedia_url m book_id language = some p.1) ∨
       (urls.find? (fun q => q.2 == language) = none ∧
          find_wikipedia_url m book_id language = (urls.head?).map Prod.fst))) := by
  refine ⟨?_, ?_, ?_⟩
  · intro h; simp [find_wikipedia_url, h]
  · intro u l h; simp [find_wikipedia_url, h]
  · intro urls h hlen
    have hne : urls.length ≠ 1 := by omega
    cases hfind : urls.find? (fun q => q.2 == language) with
    | some p =>
      exact Or.inl ⟨p, rfl, by simp [find_wikipedia_url, h, hne, hfind]⟩
    | none =>
      exact Or.inr ⟨rfl, by simp [find_wikipedia_url, h, hne, hfind]⟩

/-- Witness for C5 on concrete inputs covering all three cases. -/
theorem find_wikipedia_url_spec_witness :
    ([(("1" : String), [(("u1" : String), ("en" : String))])].lookup "2" = none ∧
      find_wikipedia_url [("1", [("u1", "en")])] "2" "fr" = some "URL_NOT_FOUND") ∧
    (find_wikipedia_url [("1", [("u1", "en")])] "1" "fr" = some "u1") ∧
    (find_wikipedia_url [("1", [("u1", "en"), ("u2", "fr")])] "1" "fr" = some "u2") := by
  refine ⟨⟨by decide, ?_⟩, ?_, ?_⟩
  · exact (find_wikipedia_url_spec [("1", [("u1", "en")])] "2" "fr").1 (by decide)
  · exact (find_wikipedia_url_spec [("1", [("u1", "en")])] "1" "fr").2.1 "u1" "en" (by decide)
  · have h := (find_wikipedia_url_spec [("1", [("u1", "en"), ("u2", "fr")])] "1" "fr").2.2
      [("u1", "en"), ("u2", "fr")] (by decide) (by decide)
    rcases h with ⟨p, hp, he⟩ | ⟨hn, _⟩
    · have : p = ("u2", "fr") := by
        have := hp
        simp [List.find?] at this
        simpa using this.symm
      rw [he, this]
    · simp [List.find?] at hn

/-! ### Shared configuration constants (identical in both pipeline scripts) -/

def MAX_RETRIES : Nat := 3
def RETRY_DELAYS : List Nat := [5, 15, 45]
def REQUEST_TIMEOUT : Nat := 30

/-! ### Checkpoint entries and files.

A progress file is a JSON object mapping key strings to entries; Python dicts
preserve insertion order, so the mapping is an association list upserted in
place. The state of the on-disk file when a loader runs is a `FileState`:
`ioError` models a file whose open/read raises `IOError`, `badJson` a file
whose content makes `json.load`/`json.loads` raise `JSONDecodeError`,
`emptyContent` a file whose content strips to the empty string. -/

structure Entry where
  status : String
  filename : Option String
  timestamp : String
deriving DecidableEq, Repr

abbrev Progress := List (String × Entry)

inductive FileState (α : Type) where
  | absent
  | ioError
  | badJson
  | emptyContent
  | ok (data : α)
deriving DecidableEq

namespace GetWiki

/-- `load_progress` from get_wiki_articles.py lines 200-213: a missing file
yields `{}` and every exception during open/parse is caught (bare
`except Exception`), also yielding `{}`. -/
def load_progress (file : FileState Progress) : Progress :=
  match file with
  | .absent => []
  | .ioError => []
  | .badJson => []
  | .emptyContent => []
  | .ok d => d

end GetWiki

namespace RetryFailed

/-- `load_progress` from retry_failed.py lines 40-45: a missing file yields
`{}`, but there is no try/except, so a read error or corrupt JSON propagates
(`Except.error`). An empty file also raises `JSONDecodeError`. -/
def load_progress (file : FileState Progress) : Except String Progress :=
  match file with
  | .absent => .ok []
  | .ioError => .error "IOError"
  | .badJson => .error "json.JSONDecodeError"
  | .emptyContent => .error "json.JSONDecodeError"
  | .ok d => .ok d

end RetryFailed

namespace ValidateWiki

/-- `load_validation_progress` from validate_wiki_articles.py lines 204-214:
missing file yields `{}`; `JSONDecodeError`/`IOError` are caught yielding
`{}`; an empty (stripped) content string is guarded by `if content:` and
yields `{}`. -/
def load_validation_progress (file : FileState Progress) : Progress :=
  match file with
  | .absent => []
  | .ioError => []
  | .badJson => []
  | .emptyContent => []
  | .ok d => d

end ValidateWiki

/-- C4 counterexample: the retry pipeline's `load_progress` raises on a
checkpoint file containing corrupt JSON instead of returning the empty
mapping, so checkpoint loading is not fail-open in every pipeline. -/
theorem load_progress_not_fail_open_counterexample :
    RetryFailed.load_progress (FileState.badJson) =
      Except.error "json.JSONDecodeError" ∧
    RetryFailed.load_progress (FileState.badJson) ≠ Except.ok ([] : Progress) := by
  constructor
  · rfl
  · intro h; simp [RetryFailed.load_progress] at h

/-- C4 (amended): the primary and validation loaders are fail-open — for every
file state other than a successfully parsed mapping they return the empty
mapping and never raise; the retry pipeline's loader is fail-open only for a
missing file, and propagates an error for an unreadable, corrupt, or empty
checkpoint file. -/
theorem load_progress_fail_open_spec (f : FileState Progress) :
    (GetWiki.load_progress f =
      match f with | .ok d => d | _ => []) ∧
    (ValidateWiki.load_validation_progress f =
      match f with | .ok d => d | _ => []) ∧
    (RetryFailed.load_progress f =
      match f with
      | .absent => .ok []
      | .ok d => .ok d
      | .ioError => .error "IOError"
      | .badJson => .error "json.JSONDecodeError"
      | .emptyContent => .error "json.JSONDecodeError") := by
  cases f <;> exact ⟨rfl, rfl, rfl⟩

/-! ### Remote fetch adapters.

The network is an explicit response script: `script n` is the outcome of the
HTTP request made on attempt `n` (`retry_count = n`). `httpResp status jsonOk
pages` is a completed HTTP response with its status code, whether
`response.json()` parses, and the parsed `query.pages` values in iteration
order; `timeout` and `connError` are the corresponding transport
exceptions. -/

structure ApiPage where
  pageid : Option Nat
  missing : Bool
  invalid : Bool
  invalidreason : Option String
  extract : String
  disambiguation : Bool
deriving DecidableEq, Repr

inductive RespEvent where
  | timeout
  | connError
  | httpResp (status : Nat) (jsonOk : Bool) (pages : List ApiPage)
deriving DecidableEq, Repr

/-- Does the scripted event carry this HTTP status code? -/
def RespEvent.statusIs (e : RespEvent) (code : Nat) : Bool :=
  match e with
  | .httpResp status _ _ => status == code
  | _ => false

/-- Result of one fetch-adapter call: final outcome, the backoff sleeps
performed (in order), and the number of HTTP requests issued. `message` is
the article content when `success` and the error reason otherwise. -/
structure FetchResult where
  success : Bool
  message : String
  delays : List Nat
  attempts : Nat
deriving DecidableEq, Repr

namespace GetWiki

/-- `fetch_wikipedia_content` from get_wiki_articles.py lines 87-178.
`raise_for_status` raises `HTTPError` for any 4xx/5xx status, caught as a
`RequestException`; a non-parsing body raises `JSONDecodeError`. -/
def fetch_wikipedia_content (script : Nat → RespEvent) (retry_count : Nat) :
    FetchResult :=
  match script retry_count with
  | .timeout =>
    ⟨false, "Request timeout after " ++ natToString REQUEST_TIMEOUT ++ "s", [], 1⟩
  | .connError => ⟨false, "Connection error", [], 1⟩
  | .httpResp status jsonOk pages =>
    if status = 429 then
      if _h : retry_count < MAX_RETRIES then
        let wait_time := RETRY_DELAYS.getD retry_count 0
        let rest := fetch_wikipedia_content script (retry_count + 1)
        ⟨rest.success, rest.message, wait_time :: rest.delays, rest.attempts + 1⟩
      else ⟨false, "Rate limited - max retries exceeded", [], 1⟩
    else if status = 503 then
      if _h : retry_count < MAX_RETRIES then
        let wait_time := RETRY_DELAYS.getD retry_count 0
        let rest := fetch_wikipedia_content script (retry_count + 1)
        ⟨rest.success, rest.message, wait_time :: rest.delays, rest.attempts + 1⟩
      else ⟨false, "Service unavailable - max retries exceeded", [], 1⟩
    else if 400 ≤ status then
      ⟨false, "Request error: HTTP " ++ natToString status, [], 1⟩
    else if !jsonOk then ⟨false, "Invalid JSON response", [], 1⟩
    else
      match pages with
      | [] => ⟨false, "Empty API response", [], 1⟩
      | page :: _ =>
        if page.missing then ⟨false, "Page does not exist (404)", [], 1⟩
        else if page.extract = "" then ⟨false, "Empty article content", [], 1⟩
        else ⟨true, page.extract, [], 1⟩
termination_by MAX_RETRIES + 1 - retry_count
decreasing_by all_goals omega

end GetWiki

/-- One diagnostics value (the Python dict holds bools, ints and strings). -/
inductive DiagVal where
  | b (v : Bool)
  | n (v : Nat)
  | s (v : String)
deriving DecidableEq, Repr

abbrev Diagnostics := List (String × DiagVal)

/-- Outcome of the raw-revision fallback query of the retry pipeline:
`revs size redirect` is a response whose first page has a revision of the
given size whose content does / does not start with `#REDIRECT`;
`noRevisions` is a first page without revisions; the remaining constructors
are exceptions raised while issuing or reading that second request, caught by
the surrounding handlers. -/
inductive RevOutcome where
  | revs (size : Nat) (contentStartsRedirect : Bool)
  | noRevisions
  | connError
  | timeout
  | exc (msg : String)
deriving DecidableEq, Repr

/-- Result of one `diagnose_and_fetch` call (success flag, message or
content, diagnostics bundle, backoff sleeps, number of main API requests). -/
structure DiagResult where
  success : Bool
  message : String
  diagnostics : Diagnostics
  delays : List Nat
  attempts : Nat
deriving DecidableEq, Repr

namespace RetryFailed

/-- `diagnose_and_fetch` from retry_failed.py lines 75-187. `rev` is the
outcome of the raw-revision fallback query issued only when the extract is
empty and the page is not flagged as a disambiguation. Exceptions other than
`Timeout`/`ConnectionError` (including `HTTPError` from `raise_for_status`
and `JSONDecodeError`) are caught by the bare `except Exception` handler. -/
def diagnose_and_fetch (script : Nat → RespEvent) (rev : RevOutcome)
    (lang page_title : String) (retry_count : Nat) : DiagResult :=
  match script retry_count with
  | .timeout =>
    ⟨false, "Request timeout after " ++ natToString REQUEST_TIMEOUT ++ "s",
      [("timeout", .b true)], [], 1⟩
  | .connError => ⟨false, "Connection error", [("connection_error", .b true)], [], 1⟩
  | .httpResp status jsonOk pages =>
    if status = 429 then
      if _h : retry_count < MAX_RETRIES then
        let wait_time := RETRY_DELAYS.getD retry_count 0
        let rest := diagnose_and_fetch script rev lang page_title (retry_count + 1)
        ⟨rest.success, rest.message, rest.diagnostics,
          wait_time :: rest.delays, rest.attempts + 1⟩
      else ⟨false, "Rate limited - max retries exceeded", [], [], 1⟩
    else if status = 503 then
      if _h : retry_count < MAX_RETRIES then
        let wait_time := RETRY_DELAYS.getD retry_count 0
        let rest := diagnose_and_fetch script rev lang page_title (retry_count + 1)
        ⟨rest.success, rest.message, rest.diagnostics,
          wait_time :: rest.delays, rest.attempts + 1⟩
      else ⟨false, "Service unavailable - max retries exceeded", [], [], 1⟩
    else if 400 ≤ status then
      ⟨false, "Unexpected error: HTTP " ++ natToString status,
        [("exception", .s ("HTTP " ++ natToString status))], [], 1⟩
    else if !jsonOk then
      ⟨false, "Unexpected error: JSONDecodeError",
        [("exception", .s "JSONDecodeError")], [], 1⟩
    else
      match pages with
      | [] => ⟨false, "Empty API response", [("api_returned_no_pages", .b true)], [], 1⟩
      | page :: _ =>
        let base : Diagnostics :=
          [("page_id", match page.pageid with | some i => .n i | none => .s "N/A"),
           ("lang", .s lang), ("page_title", .s page_title)]
        if page.missing then
          ⟨false, "Page does not exist (404)", base ++ [("missing", .b true)], [], 1⟩
        else if page.invalid then
          let reason := page.invalidreason.getD "unknown"
          ⟨false, "Invalid page title: " ++ reason,
            base ++ [("invalid", .s reason)], [], 1⟩
        else
          let base2 := base ++ [("extract_length", .n page.extract.length)]
          if page.extract = "" then
            if page.disambiguation then
              ⟨false, "Disambiguation page (no article content)",
                base2 ++ [("is_disambiguation", .b true)], [], 1⟩
            else
              match rev with
              | .revs size redirect =>
                let base3 := base2 ++ [("raw_size", .n size)]
                if size = 0 then
                  ⟨false, "Page exists but has zero content", base3, [], 1⟩
                else if redirect then
                  ⟨false, "Page is a redirect",
                    base3 ++ [("is_redirect", .b true)], [], 1⟩
                else
                  ⟨false,
                    "Page has content but extract failed (likely special page type)",
                    base3, [], 1⟩
              | .noRevisions => ⟨false, "No revisions found", base2, [], 1⟩
              | .connError =>
                ⟨false, "Connection error", [("connection_error", .b true)], [], 1⟩
              | .timeout =>
                ⟨false, "Request timeout after " ++ natToString REQUEST_TIMEOUT ++ "s",
                  [("timeout", .b true)], [], 1⟩
              | .exc m =>
                ⟨false, "Unexpected error: " ++ m, [("exception", .s m)], [], 1⟩
          else ⟨true, page.extract, base2, [], 1⟩
termination_by MAX_RETRIES + 1 - retry_count
decreasing_by all_goals omega

end RetryFailed

theorem statusIs_iff (e : RespEvent) (c : Nat) :
    e.statusIs c = true ↔ ∃ j p, e = .httpResp c j p := by
  cases e <;> simp [RespEvent.statusIs]

theorem unexpected_prefix_ne (m : String) :
    "Unexpected error: " ++ m ≠ "Empty article content" := by
  intro h
  have h1 : ("Unexpected error: " ++ m).data.head? = some 'U' := rfl
  rw [h] at h1
  exact absurd h1 (by decide)

/-- C1 counterexample: in the retry pipeline's `diagnose_and_fetch`, a
well-formed first response whose page has an empty extract is terminal on the
first attempt but carries the reason `"No revisions found"` (here, the
raw-revision fallback finds no revisions), not `"Empty article content"` as
the claim states for the empty-extract absence case of every fetch adapter. -/
theorem fetch_retry_classification_counterexample :
    RetryFailed.diagnose_and_fetch
        (fun _ => RespEvent.httpResp 200 true [⟨some 7, false, false, none, "", false⟩])
        RevOutcome.noRevisions "en" "Title" 0 =
      ⟨false, "No revisions found",
        [("page_id", .n 7), ("lang", .s "en"), ("page_title", .s "Title"),
         ("extract_length", .n 0)], [], 1⟩ ∧
    "No revisions found" ≠ "Empty article content" := by
  constructor
  · simp [RetryFailed.diagnose_and_fetch]
  · decide

/-- C1 (amended): both fetch adapters retry HTTP 429/503 up to 3 times with
backoff delays 5, 15, 45 indexed by attempt number, reaching a terminal
failure only when retries are exhausted (and succeeding after `k ≤ 3`
rate-limited attempts with exactly the first `k` delays slept); every other
failure — other non-2xx statuses, timeout, connection failure, empty page
set, missing page, empty extract — is terminal on the first attempt with
zero retries. The reasons `"Empty API response"` and
`"Page does not exist (404)"` are shared by both adapters;
`"Empty article content"` is the primary adapter's empty-extract reason,
while `diagnose_and_fetch` reports a diagnostic-specific reason for an empty
extract (disambiguation / zero content / redirect / extract failed / no
revisions), never `"Empty article content"`. -/
theorem fetch_retry_classification_spec :
    (∀ script : Nat → RespEvent,
      (∀ n, n ≤ MAX_RETRIES → (script n).statusIs 429 = true) →
      GetWiki.fetch_wikipedia_content script 0 =
        ⟨false, "Rate limited - max retries exceeded", [5, 15, 45], 4⟩) ∧
    (∀ script : Nat → RespEvent,
      (∀ n, n ≤ MAX_RETRIES → (script n).statusIs 503 = true) →
      GetWiki.fetch_wikipedia_content script 0 =
        ⟨false, "Service unavailable - max retries exceeded", [5, 15, 45], 4⟩) ∧
    (∀ (script : Nat → RespEvent) rev lang title,
      (∀ n, n ≤ MAX_RETRIES → (script n).statusIs 429 = true) →
      RetryFailed.diagnose_and_fetch script rev lang title 0 =
        ⟨false, "Rate limited - max retries exceeded", [], [5, 15, 45], 4⟩) ∧
    (∀ (script : Nat → RespEvent) rev lang title,
      (∀ n, n ≤ MAX_RETRIES → (script n).statusIs 503 = true) →
      RetryFailed.diagnose_and_fetch script rev lang title 0 =
        ⟨false, "Service unavailable - max retries exceeded", [], [5, 15, 45], 4⟩) ∧
    (∀ (script : Nat → RespEvent) page k, k ≤ MAX_RETRIES →
      (∀ n, n < k → (script n).statusIs 429 = true) →
      script k = .httpResp 200 true [page] →
      page.missing = false → page.extract ≠ "" →
      GetWiki.fetch_wikipedia_content script 0 =
        ⟨true, page.extract, RETRY_DELAYS.take k, k + 1⟩) ∧
    (∀ script : Nat → RespEvent, script 0 = .timeout →
      GetWiki.fetch_wikipedia_content script 0 =
        ⟨false, "Request timeout after 30s", [], 1⟩) ∧
    (∀ script : Nat → RespEvent, script 0 = .connError →
      GetWiki.fetch_wikipedia_content script 0 =
        ⟨false, "Connection error", [], 1⟩) ∧
    (∀ (script : Nat → RespEvent) status j p, status ≠ 429 → status ≠ 503 →
      400 ≤ status → script 0 = .httpResp status j p →
      GetWiki.fetch_wikipedia_content script 0 =
        ⟨false, "Request error: HTTP " ++ natToString status, [], 1⟩) ∧
    (∀ script : Nat → RespEvent, script 0 = .httpResp 200 true [] →
      GetWiki.fetch_wikipedia_content script 0 =
        ⟨false, "Empty API response", [], 1⟩) ∧
    (∀ (script : Nat → RespEvent) page, script 0 = .httpResp 200 true [page] →
      page.missing = true →
      GetWiki.fetch_wikipedia_content script 0 =
        ⟨false, "Page does not exist (404)", [], 1⟩) ∧
    (∀ (script : Nat → RespEvent) page, script 0 = .httpResp 200 true [page] →
      page.missing = false → page.extract = "" →
      GetWiki.fetch_wikipedia_content script 0 =
        ⟨false, "Empty article content", [], 1⟩) ∧
    (∀ (script : Nat → RespEvent) rev lang title,
      script 0 = .httpResp 200 true [] →
      (RetryFailed.diagnose_and_fetch script rev lang title 0).success = false ∧
      (RetryFailed.diagnose_and_fetch script rev lang title 0).message =
        "Empty API response" ∧
      (RetryFailed.diagnose_and_fetch script rev lang title 0).delays = [] ∧
      (RetryFailed.diagnose_and_fetch script rev lang title 0).attempts = 1) ∧
    (∀ (script : Nat → RespEvent) rev lang title page,
      script 0 = .httpResp 200 true [page] → page.missing = true →
      (RetryFailed.diagnose_and_fetch script rev lang title 0).success = false ∧
      (RetryFailed.diagnose_and_fetch script rev lang title 0).message =
        "Page does not exist (404)" ∧
      (RetryFailed.diagnose_and_fetch script rev lang title 0).delays = [] ∧
      (RetryFailed.diagnose_and_fetch script rev lang title 0).attempts = 1) ∧
    (∀ (script : Nat → RespEvent) rev lang title page,
      script 0 = .httpResp 200 true [page] →
      page.missing = false → page.invalid = false → page.extract = "" →
      (RetryFailed.diagnose_and_fetch script rev lang title 0).success = false ∧
      (RetryFailed.diagnose_and_fetch script rev lang title 0).delays = [] ∧
      (RetryFailed.diagnose_and_fetch script rev lang title 0).attempts = 1 ∧
      (RetryFailed.diagnose_and_fetch script rev lang title 0).message ≠
        "Empty article content" ∧
      (page.disambiguation = true →
        (RetryFailed.diagnose_and_fetch script rev lang title 0).message =
          "Disambiguation page (no article content)") ∧
      (page.disambiguation = false →
        (∀ rd, rev = .revs 0 rd →
          (RetryFailed.diagnose_and_fetch script rev lang title 0).message =
            "Page exists but has zero content") ∧
        (∀ size, size ≠ 0 → rev = .revs size true →
          (RetryFailed.diagnose_and_fetch script rev lang title 0).message =
            "Page is a redirect") ∧
        (∀ size, size ≠ 0 → rev = .revs size false →
          (RetryFailed.diagnose_and_fetch script rev lang title 0).message =
            "Page has content but extract failed (likely special page type)") ∧
        (rev = .noRevisions →
          (RetryFailed.diagnose_and_fetch script rev lang title 0).message =
            "No revisions found"))) := by
  simp only [MAX_RETRIES]
  refine ⟨?_, ?_, ?_, ?_, ?_, ?_, ?_, ?_, ?_, ?_, ?_, ?_, ?_, ?_⟩
  · intro script h
    obtain ⟨j0, p0, h0⟩ := (statusIs_iff _ _).1 (h 0 (by omega))
    obtain ⟨j1, p1, h1⟩ := (statusIs_iff _ _).1 (h 1 (by omega))
    obtain ⟨j2, p2, h2⟩ := (statusIs_iff _ _).1 (h 2 (by omega))
    obtain ⟨j3, p3, h3⟩ := (statusIs_iff _ _).1 (h 3 (by omega))
    simp [GetWiki.fetch_wikipedia_content, h0, h1, h2, h3, MAX_RETRIES, RETRY_DELAYS]
  · intro script h
    obtain ⟨j0, p0, h0⟩ := (statusIs_iff _ _).1 (h 0 (by omega))
    obtain ⟨j1, p1, h1⟩ := (statusIs_iff _ _).1 (h 1 (by omega))
    obtain ⟨j2, p2, h2⟩ := (statusIs_iff _ _).1 (h 2 (by omega))
    obtain ⟨j3, p3, h3⟩ := (statusIs_iff _ _).1 (h 3 (by omega))
    simp [GetWiki.fetch_wikipedia_content, h0, h1, h2, h3, MAX_RETRIES, RETRY_DELAYS]
  · intro script rev lang title h
    obtain ⟨j0, p0, h0⟩ := (statusIs_iff _ _).1 (h 0 (by omega))
    obtain ⟨j1, p1, h1⟩ := (statusIs_iff _ _).1 (h 1 (by omega))
    obtain ⟨j2, p2, h2⟩ := (statusIs_iff _ _).1 (h 2 (by omega))
    obtain ⟨j3, p3, h3⟩ := (statusIs_iff _ _).1 (h 3 (by omega))
    simp [RetryFailed.diagnose_and_fetch, h0, h1, h2, h3, MAX_RETRIES, RETRY_DELAYS]
  · intro script rev lang title h
    obtain ⟨j0, p0, h0⟩ := (statusIs_iff _ _).1 (h 0 (by omega))
    obtain ⟨j1, p1, h1⟩ := (statusIs_iff _ _).1 (h 1 (by omega))
    obtain ⟨j2, p2, h2⟩ := (statusIs_iff _ _).1 (h 2 (by omega))
    obtain ⟨j3, p3, h3⟩ := (statusIs_iff _ _).1 (h 3 (by omega))
    simp [RetryFailed.diagnose_and_fetch, h0, h1, h2, h3, MAX_RETRIES, RETRY_DELAYS]
  · intro script page k hk h429 hgood hmiss hext
    interval_cases k
    · simp [GetWiki.fetch_wikipedia_content, hgood, hmiss, hext, RETRY_DELAYS]
    · obtain ⟨j0, p0, h0⟩ := (statusIs_iff _ _).1 (h429 0 (by omega))
      simp [GetWiki.fetch_wikipedia_content, h0, hgood, hmiss, hext,
        MAX_RETRIES, RETRY_DELAYS]
    · obtain ⟨j0, p0, h0⟩ := (statusIs_iff _ _).1 (h429 0 (by omega))
      obtain ⟨j1, p1, h1⟩ := (statusIs_iff _ _).1 (h429 1 (by omega))
      simp [GetWiki.fetch_wikipedia_content, h0, h1, hgood, hmiss, hext,
        MAX_RETRIES, RETRY_DELAYS]
    · obtain ⟨j0, p0, h0⟩ := (statusIs_iff _ _).1 (h429 0 (by omega))
      obtain ⟨j1, p1, h1⟩ := (statusIs_iff _ _).1 (h429 1 (by omega))
      obtain ⟨j2, p2, h2⟩ := (statusIs_iff _ _).1 (h429 2 (by omega))
      simp [GetWiki.fetch_wikipedia_content, h0, h1, h2, hgood, hmiss, hext,
        MAX_RETRIES, RETRY_DELAYS]
  · intro script h0
    simp [GetWiki.fetch_wikipedia_content, h0]
    decide
  · intro script h0
    simp [GetWiki.fetch_wikipedia_content, h0]
  · intro script status j p hn429 hn503 h400 h0
    simp [GetWiki.fetch_wikipedia_content, h0, hn429, hn503, h400]
  · intro script h0
    simp [GetWiki.fetch_wikipedia_content, h0]
  · intro script page h0 hmiss
    simp [GetWiki.fetch_wikipedia_content, h0, hmiss]
  · intro script page h0 hmiss hext
    simp [GetWiki.fetch_wikipedia_content, h0, hmiss, hext]
  · intro script rev lang title h0
    simp [RetryFailed.diagnose_and_fetch, h0]
  · intro script rev lang title page h0 hmiss
    simp [RetryFailed.diagnose_and_fetch, h0, hmiss]
  · intro script rev lang title page h0 hmiss hinv hext
    cases hdis : page.disambiguation
    · cases rev with
      | revs size redirect =>
        rcases Nat.eq_zero_or_pos size with hz | hz
        · subst hz
          cases redirect <;>
            simp [RetryFailed.diagnose_and_fetch, h0, hmiss, hinv, hext, hdis] <;>
            exact fun s hs h => hs h.symm
        · have hsz : size ≠ 0 := by omega
          cases redirect <;>
            simp [RetryFailed.diagnose_and_fetch, h0, hmiss, hinv, hext, hdis, hsz]
      | noRevisions =>
        simp [RetryFailed.diagnose_and_fetch, h0, hmiss, hinv, hext, hdis]
      | connError =>
        simp [RetryFailed.diagnose_and_fetch, h0, hmiss, hinv, hext, hdis]
      | timeout =>
        simp [RetryFailed.diagnose_and_fetch, h0, hmiss, hinv, hext, hdis]
        decide
      | exc m =>
        simp [RetryFailed.diagnose_and_fetch, h0, hmiss, hinv, hext, hdis]
        exact unexpected_prefix_ne m
    · simp [RetryFailed.diagnose_and_fetch, h0, hmiss, hinv, hext, hdis]

/-- Witness for C1 at concrete scripts: persistent 429 exhausts the schedule;
success after two rate-limited attempts sleeps exactly [5, 15]; an empty
extract is terminal at once in the primary adapter; a missing page is
terminal at once in the retry adapter. -/
theorem fetch_retry_classification_spec_witness :
    GetWiki.fetch_wikipedia_content (fun _ => RespEvent.httpResp 429 true []) 0 =
      ⟨false, "Rate limited - max retries exceeded", [5, 15, 45], 4⟩ ∧
    GetWiki.fetch_wikipedia_content
      (fun n => if n < 2 then RespEvent.httpResp 429 true []
        else RespEvent.httpResp 200 true [⟨some 1, false, false, none, "BODY", false⟩]) 0 =
      ⟨true, "BODY", [5, 15], 3⟩ ∧
    GetWiki.fetch_wikipedia_content
      (fun _ => RespEvent.httpResp 200 true [⟨some 1, false, false, none, "", false⟩]) 0 =
      ⟨false, "Empty article content", [], 1⟩ ∧
    (RetryFailed.diagnose_and_fetch
      (fun _ => RespEvent.httpResp 200 true [⟨some 1, true, false, none, "x", false⟩])
      RevOutcome.noRevisions "en" "T" 0).message = "Page does not exist (404)" := by
  refine ⟨?_, ?_, ?_, ?_⟩
  · exact fetch_retry_classification_spec.1 _ (fun n hn => rfl)
  · exact fetch_retry_classification_spec.2.2.2.2.1 _
      ⟨some 1, false, false, none, "BODY", false⟩ 2 (by decide)
      (fun n hn => by interval_cases n <;> rfl) (by decide) (by decide) (by decide)
  · exact fetch_retry_classification_spec.2.2.2.2.2.2.2.2.2.2.1 _
      ⟨some 1, false, false, none, "", false⟩ rfl rfl rfl
  · exact (fetch_retry_classification_spec.2.2.2.2.2.2.2.2.2.2.2.2.1 _
      RevOutcome.noRevisions "en" "T" ⟨some 1, true, false, none, "x", false⟩ rfl rfl).2.1

/-! ### Summary reports (C10). Python floats are modelled as rationals; a
Python `/` with zero divisor raises `ZeroDivisionError`, modelled as `none`. -/

/-- Python true division: `none` models `ZeroDivisionError`. -/
def pyDiv (a b : ℚ) : Option ℚ := if b = 0 then none else some (a / b)

namespace GetWiki

/-- The `stats` dictionary of get_wiki_articles.py `main`. -/
structure Stats where
  total_books : Nat
  processed_books : Nat
  total_urls : Nat
  successful : Nat
  failed : Nat
  skipped : Nat
  failed_book_ids : List String
deriving DecidableEq, Repr

/-- The success-rate computation of `generate_summary`
(get_wiki_articles.py line 274): the divisor is guarded with
`max(total_urls - skipped, 1)`. -/
def generate_summary (stats : Stats) : Option ℚ :=
  pyDiv ((stats.successful : ℚ) * 100) ((max (stats.total_urls - stats.skipped) 1 : Nat) : ℚ)

end GetWiki

namespace ValidateWiki

/-- The `stats` dictionary of validate_wiki_articles.py `main`; the
confidence buckets are `defaultdict(int)`. -/
structure VStats where
  total_processed : Nat
  matchCount : Nat      -- stats['matches']   (`matches` is a Lean keyword)
  mismatchCount : Nat   -- stats['mismatches']
  errors : Nat
  match_confidence : String → Nat
  mismatch_confidence : String → Nat

/-- The nine percentage computations of `generate_summary`
(validate_wiki_articles.py lines 253-284), in the order the f-string
evaluates them; any zero divisor raises `ZeroDivisionError` (`none`). -/
def generate_summary (s : VStats) : Option (List ℚ) := do
  let p1 ← pyDiv (100 * (s.matchCount : ℚ)) (s.total_processed : ℚ)
  let p2 ← pyDiv (100 * (s.mismatchCount : ℚ)) (s.total_processed : ℚ)
  let p3 ← pyDiv (100 * (s.errors : ℚ)) (s.total_processed : ℚ)
  let m1 ← pyDiv (100 * (s.match_confidence "HIGH" : ℚ)) (s.matchCount : ℚ)
  let m2 ← pyDiv (100 * (s.match_confidence "MEDIUM" : ℚ)) (s.matchCount : ℚ)
  let m3 ← pyDiv (100 * (s.match_confidence "LOW" : ℚ)) (s.matchCount : ℚ)
  let n1 ← pyDiv (100 * (s.mismatch_confidence "HIGH" : ℚ)) (s.mismatchCount : ℚ)
  let n2 ← pyDiv (100 * (s.mismatch_confidence "MEDIUM" : ℚ)) (s.mismatchCount : ℚ)
  let n3 ← pyDiv (100 * (s.mismatch_confidence "LOW" : ℚ)) (s.mismatchCount : ℚ)
  return [p1, p2, p3, m1, m2, m3, n1, n2, n3]

end ValidateWiki

/-- C10: the validation pipeline's summary divides by `total_processed`,
`matches` and `mismatches` with no zero guard, so it is defined exactly when
all three are nonzero and raises `ZeroDivisionError` otherwise; the primary
pipeline's summary divisor is guarded by `max(total_urls - skipped, 1)` and
is always defined. -/
theorem generate_summary_division_guard :
    (∀ s : ValidateWiki.VStats,
      (ValidateWiki.generate_summary s).isSome ↔
        (s.total_processed ≠ 0 ∧ s.matchCount ≠ 0 ∧ s.mismatchCount ≠ 0)) ∧
    (∀ s : GetWiki.Stats, (GetWiki.generate_summary s).isSome) := by
  constructor
  · intro s
    by_cases h1 : s.total_processed = 0 <;> by_cases h2 : s.matchCount = 0 <;>
      by_cases h3 : s.mismatchCount = 0 <;>
      simp [ValidateWiki.generate_summary, pyDiv, h1, h2, h3, Option.bind]
  · intro s
    have h1 : max (s.total_urls - s.skipped) 1 ≠ 0 := by
      have := le_max_right (s.total_urls - s.skipped) 1
      omega
    have h : ((max (s.total_urls - s.skipped) 1 : Nat) : ℚ) ≠ 0 :=
      Nat.cast_ne_zero.mpr h1
    unfold GetWiki.generate_summary pyDiv
    rw [if_neg h]
    rfl

/-- Witness for C10: a run with one processed article that matched has zero
mismatches, and its validation summary is undefined; the primary summary is
defined even for the all-zero stats. -/
theorem generate_summary_division_guard_witness :
    ¬ (ValidateWiki.generate_summary
        ⟨1, 1, 0, 0, fun _ => 0, fun _ => 0⟩).isSome ∧
    (GetWiki.generate_summary ⟨0, 0, 0, 0, 0, 0, []⟩).isSome := by
  constructor
  · intro h
    have := (generate_summary_division_guard.1 ⟨1, 1, 0, 0, fun _ => 0, fun _ => 0⟩).1 h
    exact this.2.2 rfl
  · exact generate_summary_division_guard.2 ⟨0, 0, 0, 0, 0, 0, []⟩

/-! ### extract_language_code (C9).

`re.search(r'https?://([a-z]{2,3})\.wikipedia\.org', url)` in
get_wiki_articles.py lines 47-59, and
`re.search(r'https?://([a-z\-]{2,7})\.wikipedia\.org', url)` in
retry_failed.py lines 54-59, modelled as an explicit matcher:

* `re.search` scans positions left to right and returns the leftmost match
  (`searchLang` recursing over suffixes);
* `https?` is deterministic: the branch with `s` and the branch without can
  never both continue (the character after `http` is `s` or `:`, never
  both), so testing `https://` before `http://` is exact (`matchScheme`);
* the greedy bounded repetition `{m,n}` with the literal `.wikipedia.org`
  required after it backtracks from the longest repetition count down to the
  shortest (`greedyLang` trying `k = maxL, ..., minL`). -/

def isLowerAZ (c : Char) : Bool := 97 ≤ c.toNat && c.toNat ≤ 122

def isLangCharRetry (c : Char) : Bool := isLowerAZ c || c == '-'

def wikiDomain : List Char := ".wikipedia.org".toList

/-- Match exactly `k` characters of the class `allowed`, followed by the
literal `.wikipedia.org`, at the start of `r`; returns the captured group. -/
def tryLangLen (allowed : Char → Bool) (r : List Char) (k : Nat) :
    Option (List Char) :=
  let pre := r.take k
  if pre.length = k && pre.all allowed && wikiDomain.isPrefixOf (r.drop k) then
    some pre
  else none

/-- Greedy `{minL,k}` repetition of `allowed` followed by `.wikipedia.org`:
try the longest repetition first, backtracking down to `minL`. -/
def greedyLang (allowed : Char → Bool) (minL : Nat) (r : List Char) :
    Nat → Option (List Char)
  | 0 => none
  | k+1 =>
    if k+1 < minL then none
    else
      match tryLangLen allowed r (k+1) with
      | some g => some g
      | none => greedyLang allowed minL r k

/-- Match `https?://` at the start of `s`, returning the remainder. -/
def matchScheme : List Char → Option (List Char)
  | 'h' :: 't' :: 't' :: 'p' :: 's' :: ':' :: '/' :: '/' :: r => some r
  | 'h' :: 't' :: 't' :: 'p' :: ':' :: '/' :: '/' :: r => some r
  | _ => none

/-- Attempt the whole pattern at the start of `s`. -/
def matchLangAt (allowed : Char → Bool) (minL maxL : Nat) (s : List Char) :
    Option (List Char) :=
  match matchScheme s with
  | some r => greedyLang allowed minL r maxL
  | none => none

/-- `re.search`: leftmost position at which the whole pattern matches. -/
def searchLang (allowed : Char → Bool) (minL maxL : Nat) :
    List Char → Option (List Char)
  | [] => none
  | c :: rest =>
    match matchLangAt allowed minL maxL (c :: rest) with
    | some g => some g
    | none => searchLang allowed minL maxL rest

namespace GetWiki

/-- `extract_language_code` from get_wiki_articles.py lines 47-59. -/
def extract_language_code (url : String) : String :=
  match searchLang isLowerAZ 2 3 url.data with
  | some g => String.mk g
  | none => "unknown"

end GetWiki

namespace RetryFailed

/-- `extract_language_code` from retry_failed.py lines 54-59. -/
def extract_language_code (url : String) : String :=
  match searchLang isLangCharRetry 2 7 url.data with
  | some g => String.mk g
  | none => "unknown"

end RetryFailed

theorem matchScheme_colon_mem {l : List Char} (h : matchScheme l ≠ none) :
    ':' ∈ l := by
  unfold matchScheme at h
  split at h
  · simp
  · simp
  · exact absurd rfl h

theorem searchLang_cons_of_fail {allowed : Char → Bool} {minL maxL : Nat}
    {c : Char} {t : List Char}
    (h : matchLangAt allowed minL maxL (c :: t) = none) :
    searchLang allowed minL maxL (c :: t) = searchLang allowed minL maxL t := by
  simp [searchLang, h]

theorem searchLang_none_of_no_colon {allowed : Char → Bool} {minL maxL : Nat} :
    ∀ t : List Char, (∀ c ∈ t, c ≠ ':') →
      searchLang allowed minL maxL t = none := by
  intro t
  induction t with
  | nil => intro _; rfl
  | cons c rest ih =>
    intro h
    have hm : matchScheme (c :: rest) = none := by
      by_contra hne
      exact absurd rfl (h ':' (matchScheme_colon_mem hne))
    rw [searchLang_cons_of_fail (by simp [matchLangAt, hm])]
    exact ih (fun x hx => h x (List.mem_cons_of_mem c hx))

theorem wikiDomain_isPrefixOf_cons_false {c : Char} (hc : c ≠ '.')
    (t : List Char) : wikiDomain.isPrefixOf (c :: t) = false := by
  have hbc : ('.' == c) = false := beq_eq_false_iff_ne.mpr (fun h => hc h.symm)
  rw [show wikiDomain = '.' :: "wikipedia.org".toList from rfl]
  simp [List.isPrefixOf, hbc]

theorem tryLangLen_eq_length (allowed : Char → Bool) (sub rest : List Char) :
    tryLangLen allowed (sub ++ wikiDomain ++ rest) sub.length =
      if sub.all allowed then some sub else none := by
  unfold tryLangLen
  rw [List.append_assoc]
  rw [List.take_left sub (wikiDomain ++ rest), List.drop_left sub (wikiDomain ++ rest)]
  have hpre : wikiDomain.isPrefixOf (wikiDomain ++ rest) = true :=
    List.isPrefixOf_iff_prefix.mpr (List.prefix_append _ _)
  simp [hpre]

theorem tryLangLen_lt (allowed : Char → Bool) (sub rest : List Char) (k : Nat)
    (hk : k < sub.length) (hdot : ∀ c ∈ sub, c ≠ '.') :
    tryLangLen allowed (sub ++ wikiDomain ++ rest) k = none := by
  unfold tryLangLen
  rw [List.append_assoc]
  have hdrop : (sub ++ (wikiDomain ++ rest)).drop k =
      sub.drop k ++ (wikiDomain ++ rest) :=
    List.drop_append_of_le_length (le_of_lt hk)
  have hcons : sub.drop k = sub[k] :: sub.drop (k+1) := List.drop_eq_getElem_cons hk
  have hget : sub[k] ≠ '.' := hdot _ (List.getElem_mem hk)
  rw [hdrop, hcons]
  rw [List.cons_append]
  rw [wikiDomain_isPrefixOf_cons_false hget]
  simp

theorem tryLangLen_gt (allowed : Char → Bool) (sub rest : List Char) (k : Nat)
    (hk : sub.length < k) (hallow : allowed '.' = false) :
    tryLangLen allowed (sub ++ wikiDomain ++ rest) k = none := by
  unfold tryLangLen
  by_cases hkr : k ≤ (sub ++ wikiDomain ++ rest).length
  · have hmem : '.' ∈ (sub ++ wikiDomain ++ rest).take k := by
      obtain ⟨m, hm⟩ : ∃ m, k = sub.length + (m + 1) :=
        ⟨k - sub.length - 1, by omega⟩
      rw [List.append_assoc, hm, List.take_append]
      rw [show wikiDomain ++ rest = '.' :: ("wikipedia.org".toList ++ rest) from rfl]
      simp [List.take_cons]
    have hall : ((sub ++ wikiDomain ++ rest).take k).all allowed = false := by
      rw [Bool.eq_false_iff]
      intro hall
      have := List.all_eq_true.mp hall '.' hmem
      rw [hallow] at this
      exact Bool.false_ne_true this
    simp only [hall, Bool.and_false, Bool.false_and, Bool.false_eq_true,
      if_false]
  · have hlen : ((sub ++ wikiDomain ++ rest).take k).length ≠ k := by
      rw [List.length_take]
      omega
    have hd : (decide (((sub ++ wikiDomain ++ rest).take k).length = k)) = false :=
      decide_eq_false hlen
    simp only [hd, Bool.and_false, Bool.false_and, Bool.false_eq_true, if_false]

theorem greedyLang_canonical (allowed : Char → Bool) (minL : Nat)
    (sub rest : List Char) (hminL : 1 ≤ minL)
    (hdot : ∀ c ∈ sub, c ≠ '.') (hallow : allowed '.' = false) :
    ∀ K, greedyLang allowed minL (sub ++ wikiDomain ++ rest) K =
      if minL ≤ sub.length ∧ sub.length ≤ K ∧ sub.all allowed = true then some sub
      else none := by
  intro K
  induction K with
  | zero =>
    rw [show greedyLang allowed minL (sub ++ wikiDomain ++ rest) 0 = none from rfl]
    rw [if_neg]
    rintro ⟨h1, h2, _⟩
    omega
  | succ K ih =>
    rw [show greedyLang allowed minL (sub ++ wikiDomain ++ rest) (K+1) =
      (if K+1 < minL then none
       else
         match tryLangLen allowed (sub ++ wikiDomain ++ rest) (K+1) with
         | some g => some g
         | none => greedyLang allowed minL (sub ++ wikiDomain ++ rest) K) from rfl]
    by_cases hK : K + 1 < minL
    · rw [if_pos hK, if_neg]
      rintro ⟨h1, h2, _⟩
      omega
    · rw [if_neg hK]
      rcases lt_trichotomy (K+1) sub.length with hlt | heq | hgt
      · rw [tryLangLen_lt allowed sub rest (K+1) hlt hdot, ih]
        rw [if_neg (by rintro ⟨a, b, c⟩; omega),
          if_neg (by rintro ⟨a, b, c⟩; omega)]
      · rw [heq, tryLangLen_eq_length]
        cases hall : sub.all allowed
        · simp only [Bool.false_eq_true, if_false]
          rw [ih]
          rw [if_neg (by rintro ⟨a, b, c⟩; rw [hall] at c; exact Bool.false_ne_true c),
            if_neg (by rintro ⟨a, b, c⟩; exact c)]
        · rw [if_pos rfl]
          rw [if_pos ⟨by omega, by omega, rfl⟩]
      · rw [tryLangLen_gt allowed sub rest (K+1) hgt hallow, ih]
        have hiff : (minL ≤ sub.length ∧ sub.length ≤ K ∧ sub.all allowed = true) ↔
            (minL ≤ sub.length ∧ sub.length ≤ K + 1 ∧ sub.all allowed = true) := by
          constructor <;> rintro ⟨a, b, c⟩ <;> exact ⟨a, by omega, c⟩
        rw [if_congr hiff rfl rfl]

theorem searchLang_scheme_append (allowed : Char → Bool) (minL maxL : Nat)
    (sch t : List Char)
    (hsch : sch = "https://".toList ∨ sch = "http://".toList)
    (ht : ∀ c ∈ t, c ≠ ':') :
    searchLang allowed minL maxL (sch ++ t) = greedyLang allowed minL t maxL := by
  rcases hsch with h | h <;> subst h
  · have htail : searchLang allowed minL maxL
        ('t' :: 't' :: 'p' :: 's' :: ':' :: '/' :: '/' :: t) = none := by
      have hm1 : matchLangAt allowed minL maxL
        ('t' :: 't' :: 'p' :: 's' :: ':' :: '/' :: '/' :: t) = none := rfl
      have hm2 : matchLangAt allowed minL maxL
        ('t' :: 'p' :: 's' :: ':' :: '/' :: '/' :: t) = none := rfl
      have hm3 : matchLangAt allowed minL maxL
        ('p' :: 's' :: ':' :: '/' :: '/' :: t) = none := rfl
      have hm4 : matchLangAt allowed minL maxL
        ('s' :: ':' :: '/' :: '/' :: t) = none := rfl
      have hm5 : matchLangAt allowed minL maxL
        (':' :: '/' :: '/' :: t) = none := rfl
      have hm6 : matchLangAt allowed minL maxL
        ('/' :: '/' :: t) = none := rfl
      have hm7 : matchLangAt allowed minL maxL
        ('/' :: t) = none := rfl
      rw [searchLang_cons_of_fail hm1, searchLang_cons_of_fail hm2, searchLang_cons_of_fail hm3, searchLang_cons_of_fail hm4, searchLang_cons_of_fail hm5, searchLang_cons_of_fail hm6, searchLang_cons_of_fail hm7]
      exact searchLang_none_of_no_colon t ht
    rw [show "https://".toList ++ t =
      'h' :: 't' :: 't' :: 'p' :: 's' :: ':' :: '/' :: '/' :: t from rfl]
    rw [show searchLang allowed minL maxL
        ('h' :: 't' :: 't' :: 'p' :: 's' :: ':' :: '/' :: '/' :: t) =
      (match greedyLang allowed minL t maxL with
       | some g => some g
       | none => searchLang allowed minL maxL
           ('t' :: 't' :: 'p' :: 's' :: ':' :: '/' :: '/' :: t)) from rfl]
    cases hg : greedyLang allowed minL t maxL with
    | some g => rfl
    | none => rw [htail]
  · have htail : searchLang allowed minL maxL
        ('t' :: 't' :: 'p' :: ':' :: '/' :: '/' :: t) = none := by
      have hm1 : matchLangAt allowed minL maxL
        ('t' :: 't' :: 'p' :: ':' :: '/' :: '/' :: t) = none := rfl
      have hm2 : matchLangAt allowed minL maxL
        ('t' :: 'p' :: ':' :: '/' :: '/' :: t) = none := rfl
      have hm3 : matchLangAt allowed minL maxL
        ('p' :: ':' :: '/' :: '/' :: t) = none := rfl
      have hm4 : matchLangAt allowed minL maxL
        (':' :: '/' :: '/' :: t) = none := rfl
      have hm5 : matchLangAt allowed minL maxL
        ('/' :: '/' :: t) = none := rfl
      have hm6 : matchLangAt allowed minL maxL
        ('/' :: t) = none := rfl
      rw [searchLang_cons_of_fail hm1, searchLang_cons_of_fail hm2, searchLang_cons_of_fail hm3, searchLang_cons_of_fail hm4, searchLang_cons_of_fail hm5, searchLang_cons_of_fail hm6]
      exact searchLang_none_of_no_colon t ht
    rw [show "http://".toList ++ t =
      'h' :: 't' :: 't' :: 'p' :: ':' :: '/' :: '/' :: t from rfl]
    rw [show searchLang allowed minL maxL
        ('h' :: 't' :: 't' :: 'p' :: ':' :: '/' :: '/' :: t) =
      (match greedyLang allowed minL t maxL with
       | some g => some g
       | none => searchLang allowed minL maxL
           ('t' :: 't' :: 'p' :: ':' :: '/' :: '/' :: t)) from rfl]
    cases hg : greedyLang allowed minL t maxL with
    | some g => rfl
    | none => rw [htail]

/-- C9: on a Wikipedia URL of shape `scheme ++ sub ++ ".wikipedia.org" ++ rest`
(so the host subdomain is `sub`; `sub` holds no `'.'`/`':'` and `rest` holds
no `':'` so that the subdomain is well defined and no second scheme occurs),
the primary extractor returns the subdomain exactly when it matches
`[a-z]{2,3}` and `"unknown"` otherwise, while the retry extractor returns it
exactly when it matches `[a-z-]{2,7}` (accepting compound tags such as
`zh-yue`), and `"unknown"` otherwise. -/
theorem extract_language_code_spec (scheme sub rest : String)
    (hscheme : scheme = "http://" ∨ scheme = "https://")
    (hsub : ∀ c ∈ sub.data, c ≠ '.' ∧ c ≠ ':')
    (hrest : ∀ c ∈ rest.data, c ≠ ':') :
    GetWiki.extract_language_code (scheme ++ sub ++ ".wikipedia.org" ++ rest) =
      (if 2 ≤ sub.length ∧ sub.length ≤ 3 ∧ sub.data.all isLowerAZ = true
       then sub else "unknown") ∧
    RetryFailed.extract_language_code (scheme ++ sub ++ ".wikipedia.org" ++ rest) =
      (if 2 ≤ sub.length ∧ sub.length ≤ 7 ∧ sub.data.all isLangCharRetry = true
       then sub else "unknown") := by
  have hdata : (scheme ++ sub ++ ".wikipedia.org" ++ rest).data =
      scheme.data ++ (sub.data ++ wikiDomain ++ rest.data) := by
    have h1 : (scheme ++ sub ++ ".wikipedia.org" ++ rest).data =
        ((scheme.data ++ sub.data) ++ ".wikipedia.org".data) ++ rest.data := rfl
    rw [h1]
    rw [show wikiDomain = ".wikipedia.org".data from rfl]
    simp [List.append_assoc]
  have hschemeL : scheme.data = "https://".toList ∨ scheme.data = "http://".toList := by
    rcases hscheme with h | h <;> subst h
    · exact Or.inr rfl
    · exact Or.inl rfl
  have hwd : ∀ c ∈ wikiDomain, c ≠ ':' := by decide
  have htc : ∀ c ∈ sub.data ++ wikiDomain ++ rest.data, c ≠ ':' := by
    intro c hc
    rcases List.mem_append.mp hc with hc | hc
    · rcases List.mem_append.mp hc with hc | hc
      · exact (hsub c hc).2
      · exact hwd c hc
    · exact hrest c hc
  constructor
  · unfold GetWiki.extract_language_code
    rw [hdata, searchLang_scheme_append isLowerAZ 2 3 scheme.data _ hschemeL htc]
    rw [greedyLang_canonical isLowerAZ 2 sub.data rest.data (by omega)
      (fun c hc => (hsub c hc).1) (by decide) 3]
    by_cases hc : 2 ≤ sub.data.length ∧ sub.data.length ≤ 3 ∧
        sub.data.all isLowerAZ = true
    · have hc2 : 2 ≤ sub.length ∧ sub.length ≤ 3 ∧
          sub.data.all isLowerAZ = true := hc
      rw [if_pos hc, if_pos hc2]
    · have hc2 : ¬(2 ≤ sub.length ∧ sub.length ≤ 3 ∧
          sub.data.all isLowerAZ = true) := hc
      rw [if_neg hc, if_neg hc2]
  · unfold RetryFailed.extract_language_code
    rw [hdata, searchLang_scheme_append isLangCharRetry 2 7 scheme.data _ hschemeL htc]
    rw [greedyLang_canonical isLangCharRetry 2 sub.data rest.data (by omega)
      (fun c hc => (hsub c hc).1) (by decide) 7]
    by_cases hc : 2 ≤ sub.data.length ∧ sub.data.length ≤ 7 ∧
        sub.data.all isLangCharRetry = true
    · have hc2 : 2 ≤ sub.length ∧ sub.length ≤ 7 ∧
          sub.data.all isLangCharRetry = true := hc
      rw [if_pos hc, if_pos hc2]
    · have hc2 : ¬(2 ≤ sub.length ∧ sub.length ≤ 7 ∧
          sub.data.all isLangCharRetry = true) := hc
      rw [if_neg hc, if_neg hc2]

/-- Witness for C9: the compound tag `zh-yue` is rejected by the primary
extractor and accepted by the retry extractor; `en` is accepted by the
primary extractor. -/
theorem extract_language_code_spec_witness :
    GetWiki.extract_language_code
      ("https://" ++ "zh-yue" ++ ".wikipedia.org" ++ "/wiki/T") = "unknown" ∧
    RetryFailed.extract_language_code
      ("https://" ++ "zh-yue" ++ ".wikipedia.org" ++ "/wiki/T") = "zh-yue" ∧
    GetWiki.extract_language_code
      ("https://" ++ "en" ++ ".wikipedia.org" ++ "/wiki/T") = "en" := by
  refine ⟨?_, ?_, ?_⟩
  · exact (extract_language_code_spec "https://" "zh-yue" "/wiki/T"
      (Or.inr rfl) (by decide) (by decide)).1.trans (by decide)
  · exact (extract_language_code_spec "https://" "zh-yue" "/wiki/T"
      (Or.inr rfl) (by decide) (by decide)).2.trans (by decide)
  · exact (extract_language_code_spec "https://" "en" "/wiki/T"
      (Or.inr rfl) (by decide) (by decide)).1.trans (by decide)

/-- Witness for C4 (amended) at concrete file states. -/
theorem load_progress_fail_open_spec_witness :
    GetWiki.load_progress (FileState.ioError) = [] ∧
    ValidateWiki.load_validation_progress (FileState.badJson) = [] ∧
    RetryFailed.load_progress (FileState.absent) = Except.ok [] := by
  exact ⟨(load_progress_fail_open_spec FileState.ioError).1,
    (load_progress_fail_open_spec FileState.badJson).2.1,
    (load_progress_fail_open_spec FileState.absent).2.2⟩

/-! ### Pipeline drivers (C2, C3, C6, C7).

The drivers are modelled as pure state machines producing an event trace.
The environment supplies the network (a response script per URL plus the
raw-revision outcome per URL), the success of each file write, and the wall
clock (`now` maps a tick to the timestamp string `datetime.now()` returns).
Python's whitespace `str.strip`/`str.split()` are modelled with Lean's
`String.trim`/`String.split` on ASCII whitespace; `urllib.parse.unquote`
percent-decoding of titles is not modelled (titles are only passed through
to the fetch adapter, never inspected). -/

/-- `\s` / `str.split()` whitespace (ASCII): space, tab, newline, carriage
return, form feed, vertical tab, compared on code points. -/
def isSpaceChar (c : Char) : Bool :=
  c.toNat == 32 || c.toNat == 9 || c.toNat == 10 || c.toNat == 13 ||
    c.toNat == 12 || c.toNat == 11

/-- Python dict assignment `d[k] = v`: update in place if the key exists
(keeping its position), else append. -/
def upsert (p : Progress) (key : String) (v : Entry) : Progress :=
  if p.any (fun kv => kv.1 == key) then
    p.map (fun kv => if kv.1 == key then (key, v) else kv)
  else p ++ [(key, v)]

/-- Does the mapping contain this key? (`key in progress`). -/
def hasKey (p : Progress) (key : String) : Bool :=
  p.any (fun kv => kv.1 == key)

/-- Python `str.strip()` on ASCII whitespace, over the character list. -/
def trimChars (cs : List Char) : List Char :=
  ((cs.dropWhile isSpaceChar).reverse.dropWhile isSpaceChar).reverse

/-- Python `str.strip()`. -/
def pyStrip (s : String) : String := String.mk (trimChars s.data)

/-- `s.split(sep, 1)` for a one-character separator: the part before the
first occurrence and the remainder after it; `none` when the separator is
absent (Python then returns a one-element list). -/
def splitOnceChar (sep : Char) (cs : List Char) : Option (List Char × List Char) :=
  let before := cs.takeWhile (fun c => !(c == sep))
  if before.length = cs.length then none
  else some (before, cs.drop (before.length + 1))

/-- Everything after the first occurrence of the pattern `pat` in the list. -/
def afterFirst (pat : List Char) : List Char → Option (List Char)
  | [] => none
  | c :: rest =>
    if pat.isPrefixOf (c :: rest) then some ((c :: rest).drop pat.length)
    else afterFirst pat rest

/-- Python `str.split()` (no separator): whitespace-delimited words, empty
tokens dropped; `acc` is the current word reversed. -/
def wordsAux : List Char → List Char → List (List Char)
  | [], acc => if acc.isEmpty then [] else [acc.reverse]
  | c :: rest, acc =>
    if isSpaceChar c then
      if acc.isEmpty then wordsAux rest [] else acc.reverse :: wordsAux rest []
    else wordsAux rest (c :: acc)

/-- `extract_page_title` (get_wiki_articles.py lines 62-84, retry_failed.py
lines 62-72): everything after the first `/wiki/` (the regex
`/wiki/(.+)$` needs at least one following character); no match yields
`None`. Percent-decoding is not modelled. -/
def extract_page_title (url : String) : Option String :=
  match afterFirst "/wiki/".toList (trimChars url.data) with
  | none => none
  | some t => if t.isEmpty then none else some (String.mk t)

/-- The filename-allocation step shared by process_line
(get_wiki_articles.py lines 348-358) and the retry main loop
(retry_failed.py lines 280-287): bump the per-`(book_id, lang)` counter and
derive the filename from the new count. -/
def allocate_filename (counters : String → Nat) (book_id lang : String) :
    String × (String → Nat) :=
  let lang_key := book_id ++ "_" ++ lang
  let n := counters lang_key + 1
  let counters' := fun k => if k = lang_key then n else counters k
  (if n = 1 then book_id ++ "_" ++ lang ++ ".txt"
   else book_id ++ "_" ++ lang ++ "_" ++ natToString n ++ ".txt", counters')

/-- One observable side effect of a pipeline run. -/
inductive Event where
  | progressWrite (p : Progress)
  | articleWrite (filepath : String) (ok : Bool)
  | fetchCall (url : String)
  | errorLog (book_id url msg : String)
  | throttle
  | resultsWrite
deriving DecidableEq, Repr

/-- Is this event a full rewrite of the persisted checkpoint file? -/
def Event.isProgressWrite : Event → Bool
  | .progressWrite _ => true
  | _ => false

/-- External environment of a run. -/
structure Env where
  script : String → Nat → RespEvent
  rev : String → RevOutcome
  saveOk : String → Bool
  now : Nat → String

namespace GetWiki

/-- `save_progress_entry` (get_wiki_articles.py lines 216-238): upsert under
the key `book_id|url` and rewrite the whole file (the write is the
`Event.progressWrite` the driver emits right after calling this). -/
def save_progress_entry (progress : Progress) (book_id url status : String)
    (filename : Option String) (timestamp : String) : Progress :=
  upsert progress (book_id ++ "|" ++ url) ⟨status, filename, timestamp⟩

/-- Driver state while the primary pipeline runs. -/
structure RunState where
  progress : Progress
  stats : Stats
  counters : String → Nat
  tick : Nat
  events : List Event

/-- The body of the `for url in urls` loop of `process_line`
(get_wiki_articles.py lines 320-384). -/
def process_url (env : Env) (book_id url : String) (st : RunState) : RunState :=
  let key := book_id ++ "|" ++ url
  if hasKey st.progress key then
    ⟨st.progress,
      ⟨st.stats.total_books, st.stats.processed_books, st.stats.total_urls + 1,
        st.stats.successful, st.stats.failed, st.stats.skipped + 1,
        st.stats.failed_book_ids⟩,
      st.counters, st.tick, st.events⟩
  else
    let stats1 : Stats :=
      ⟨st.stats.total_books, st.stats.processed_books, st.stats.total_urls + 1,
        st.stats.successful, st.stats.failed, st.stats.skipped,
        st.stats.failed_book_ids⟩
    let lang := extract_language_code url
    match extract_page_title url with
    | none =>
      let p' := save_progress_entry st.progress book_id url "failed" none
        (env.now st.tick)
      ⟨p',
        ⟨stats1.total_books, stats1.processed_books, stats1.total_urls,
          stats1.successful, stats1.failed + 1, stats1.skipped,
          stats1.failed_book_ids ++ [book_id]⟩,
        st.counters, st.tick + 1,
        st.events ++ [.errorLog book_id url "Could not extract page title",
          .progressWrite p']⟩
    | some _page_title =>
      let alloc := allocate_filename st.counters book_id lang
      let filename := alloc.1
      let counters' := alloc.2
      let filepath := "articles/" ++ filename
      let fr := fetch_wikipedia_content (env.script url) 0
      if fr.success then
        if env.saveOk filepath then
          let p' := save_progress_entry st.progress book_id url "success"
            (some filename) (env.now st.tick)
          ⟨p',
            ⟨stats1.total_books, stats1.processed_books, stats1.total_urls,
              stats1.successful + 1, stats1.failed, stats1.skipped,
              stats1.failed_book_ids⟩,
            counters', st.tick + 1,
            st.events ++ [.fetchCall url, .articleWrite filepath true,
              .progressWrite p', .throttle]⟩
        else
          let p' := save_progress_entry st.progress book_id url "failed" none
            (env.now st.tick)
          ⟨p',
            ⟨stats1.total_books, stats1.processed_books, stats1.total_urls,
              stats1.successful, stats1.failed + 1, stats1.skipped,
              stats1.failed_book_ids ++ [book_id]⟩,
            counters', st.tick + 1,
            st.events ++ [.fetchCall url, .articleWrite filepath false,
              .errorLog book_id url "Failed to save file", .progressWrite p',
              .throttle]⟩
      else
        let p' := save_progress_entry st.progress book_id url "failed" none
          (env.now st.tick)
        ⟨p',
          ⟨stats1.total_books, stats1.processed_books, stats1.total_urls,
            stats1.successful, stats1.failed + 1, stats1.skipped,
            stats1.failed_book_ids ++ [book_id]⟩,
          counters', st.tick + 1,
          st.events ++ [.fetchCall url, .errorLog book_id url fr.message,
            .progressWrite p', .throttle]⟩

/-- `process_line` (get_wiki_articles.py lines 293-384): split off the
book id at the first comma, split the remainder into URLs on whitespace
(`str.split()` drops empty tokens), and process each URL. -/
def process_line (env : Env) (line : String) (st : RunState) : RunState :=
  let line := trimChars line.data
  if line.isEmpty then st
  else
    match splitOnceChar ',' line with
    | none => st
    | some (part0, rest) =>
      let book_id := String.mk (trimChars part0)
      let urls := (wordsAux (trimChars rest) []).map String.mk
      urls.foldl (fun s u => process_url env book_id u s) st

/-- The work keys of the input: one `book_id|url` per URL token per valid
line. -/
def lineKeys (line : String) : List String :=
  let line := trimChars line.data
  if line.isEmpty then []
  else
    match splitOnceChar ',' line with
    | none => []
    | some (part0, rest) =>
      let book_id := String.mk (trimChars part0)
      let urls := (wordsAux (trimChars rest) []).map String.mk
      urls.map (fun u => book_id ++ "|" ++ u)

/-- `main` of get_wiki_articles.py (lines 387-447), given the input lines
and the loaded checkpoint: counters start at zero (no directory scan),
each line bumps `processed_books` and is processed in order. -/
def initial_language_counters : String → Nat := fun _ => 0

def runMain (env : Env) (lines : List String) (progress0 : Progress) : RunState :=
  let totalBooks := (lines.filter (fun l => !(trimChars l.data).isEmpty)).length
  let st0 : RunState :=
    ⟨progress0, ⟨totalBooks, 0, 0, 0, 0, 0, []⟩, initial_language_counters, 0, []⟩
  lines.foldl (fun st line =>
    process_line env line
      ⟨st.progress,
        ⟨st.stats.total_books, st.stats.processed_books + 1, st.stats.total_urls,
          st.stats.successful, st.stats.failed, st.stats.skipped,
          st.stats.failed_book_ids⟩,
        st.counters, st.tick, st.events⟩) st0

end GetWiki

namespace RetryFailed

/-- The filename-scan regex `(\d+)_([a-z\-]+)(?:_(\d+))?\.txt` of
retry_failed.py lines 236-242, applied with `re.match` (anchored at the
start only; trailing characters after `.txt` are allowed). The maximal-munch
parse is exact: `\d+` cannot extend past the `_` and `[a-z\-]+` cannot
extend past `_` or `.`, and the optional group is tried first, falling back
to requiring `.txt` directly (which then starts with `_` and fails).
Returns `(book_id, lang, count)` with `count = 1` when no numeric suffix. -/
def parseArticleFilename (name : String) : Option (String × String × Nat) :=
  let cs := name.data
  let digits := cs.takeWhile isDigitChar
  if digits.isEmpty then none
  else
    match cs.drop digits.length with
    | [] => none
    | c1 :: rest1 =>
      if c1 = '_' then
        let letters := rest1.takeWhile isLangCharRetry
        if letters.isEmpty then none
        else
          match rest1.drop letters.length with
          | [] => none
          | c2 :: rest3 =>
            if c2 = '_' then
              let digits2 := rest3.takeWhile isDigitChar
              if !digits2.isEmpty &&
                  ".txt".toList.isPrefixOf (rest3.drop digits2.length) then
                some (String.mk digits, String.mk letters, decListVal digits2)
              else none
            else
              if ".txt".toList.isPrefixOf (c2 :: rest3) then
                some (String.mk digits, String.mk letters, 1)
              else none
      else none

/-- Seeding of the filename counters from the existing output directory
(retry_failed.py lines 234-242). -/
def seed_counters (files : List String) : String → Nat :=
  files.foldl (fun counters fname =>
    match parseArticleFilename fname with
    | some (book_id, lang, count) =>
      fun k => if k = book_id ++ "_" ++ lang then max (counters k) count
        else counters k
    | none => counters) (fun _ => 0)

/-- Driver state while the retry pipeline runs. -/
structure RetryState where
  progress : Progress
  counters : String → Nat
  successful : Nat
  still_failed : Nat
  tick : Nat
  events : List Event

/-- The body of the `for idx, (key, old_value)` loop of retry_failed.py
`main` (lines 245-318). `key.split('|', 1)` raises `ValueError` when the
key has no `'|'` (modelled as `Except.error`). The in-memory progress is
only updated on a successful save, and no checkpoint write happens inside
the loop. -/
def processEntry (env : Env) (key : String) (st : RetryState) :
    Except String RetryState :=
  match splitOnceChar '|' key.data with
  | none => .error "ValueError: not enough values to unpack"
  | some (bid, u) => .ok (
    let book_id := String.mk bid
    let url := String.mk u
    let lang := extract_language_code url
    match extract_page_title url with
    | none =>
      ⟨st.progress, st.counters, st.successful, st.still_failed + 1, st.tick,
        st.events⟩
    | some page_title =>
      let dr := diagnose_and_fetch (env.script url) (env.rev url) lang page_title 0
      if dr.success then
        let alloc := allocate_filename st.counters book_id lang
        let filename := alloc.1
        let counters' := alloc.2
        let filepath := "articles/" ++ filename
        if env.saveOk filepath then
          let p' := upsert st.progress key ⟨"success", some filename, env.now st.tick⟩
          ⟨p', counters', st.successful + 1, st.still_failed, st.tick + 1,
            st.events ++ [.fetchCall url, .articleWrite filepath true, .throttle]⟩
        else
          ⟨st.progress, counters', st.successful, st.still_failed + 1, st.tick,
            st.events ++ [.fetchCall url, .articleWrite filepath false, .throttle]⟩
      else
        ⟨st.progress, st.counters, st.successful, st.still_failed + 1, st.tick,
          st.events ++ [.fetchCall url, .errorLog book_id url dr.message,
            .throttle]⟩)

/-- The `for idx, (key, old_value) in enumerate(failed_entries, 1)` loop:
process the entries in order, propagating an uncaught exception. -/
def foldProcess (env : Env) :
    List (String × Entry) → RetryState → Except String RetryState
  | [], st => .ok st
  | kv :: rest, st =>
    match processEntry env kv.1 st with
    | .error e => .error e
    | .ok st' => foldProcess env rest st'

/-- `main` of retry_failed.py (lines 201-334): load the checkpoint (which
may raise), select the `failed` entries, seed the counters by scanning the
articles directory if it exists, process every failed entry, and only then
write the checkpoint once and the results file. An empty work list returns
before any write. -/
def runMain (env : Env) (file : FileState Progress)
    (articleFiles : Option (List String)) : Except String RetryState :=
  match load_progress file with
  | .error e => .error e
  | .ok progress =>
    let failed_entries := progress.filter (fun kv => kv.2.status == "failed")
    if failed_entries.isEmpty then
      .ok ⟨progress, fun _ => 0, 0, 0, 0, []⟩
    else
      let counters0 := match articleFiles with
        | some files => seed_counters files
        | none => fun _ => 0
      match foldProcess env failed_entries ⟨progress, counters0, 0, 0, 0, []⟩ with
      | .error e => .error e
      | .ok st1 =>
        .ok ⟨st1.progress, st1.counters, st1.successful, st1.still_failed, st1.tick,
          st1.events ++ [.progressWrite st1.progress, .resultsWrite]⟩

end RetryFailed

/-! ### C2: checkpoint persistence discipline. -/

/-- C2 counterexample: a retry run over two failed entries (both succeeding)
performs both fetches and records both outcomes, yet its event trace holds
exactly one checkpoint write, after the whole loop — the first six events
(the complete processing of both items) contain no checkpoint write — so
the retry pipeline does not rewrite the checkpoint immediately after each
item. -/
theorem checkpoint_write_counterexample :
    (RetryFailed.runMain
        ⟨fun _ _ => RespEvent.httpResp 200 true
            [⟨some 1, false, false, none, "BODY", false⟩],
         fun _ => RevOutcome.noRevisions, fun _ => true, fun _ => "t1"⟩
        (FileState.ok
          [("1|https://en.wikipedia.org/wiki/A", ⟨"failed", none, "t0"⟩),
           ("2|https://en.wikipedia.org/wiki/B", ⟨"failed", none, "t0"⟩)])
        none).toOption.map
      (fun st => (st.successful,
        st.events.countP (fun e => e.isProgressWrite),
        ((st.events.take 6).countP (fun e => e.isProgressWrite)))) =
      some (2, 1, 0) := by
  have hd : ∀ lang title, RetryFailed.diagnose_and_fetch
      (fun _ => RespEvent.httpResp 200 true [⟨some 1, false, false, none, "BODY", false⟩])
      RevOutcome.noRevisions lang title 0 =
      ⟨true, "BODY", [("page_id", .n 1), ("lang", .s lang), ("page_title", .s title),
        ("extract_length", .n ("BODY".length))], [], 1⟩ := by
    intro lang title
    simp [RetryFailed.diagnose_and_fetch]
  simp only [RetryFailed.runMain, RetryFailed.load_progress,
    RetryFailed.foldProcess, RetryFailed.processEntry]
  simp only [hd]
  decide

theorem processEntry_no_progressWrite (env : Env) (key : String)
    (st st' : RetryFailed.RetryState)
    (h : RetryFailed.processEntry env key st = .ok st') :
    st'.events.filter (fun e => e.isProgressWrite) =
      st.events.filter (fun e => e.isProgressWrite) := by
  unfold RetryFailed.processEntry at h
  cases hsp : splitOnceChar '|' key.data with
  | none => rw [hsp] at h; exact absurd h (by simp)
  | some p =>
    rw [hsp] at h
    simp only [Except.ok.injEq] at h
    subst h
    cases ht : extract_page_title (String.mk p.2)
    all_goals simp only [ht]
    all_goals (split <;> try split)
    all_goals
      simp [List.filter_append, List.filter, Event.isProgressWrite]

theorem foldProcess_no_progressWrite (env : Env) :
    ∀ (l : List (String × Entry)) (st0 st1 : RetryFailed.RetryState),
      RetryFailed.foldProcess env l st0 = .ok st1 →
      st1.events.filter (fun e => e.isProgressWrite) =
        st0.events.filter (fun e => e.isProgressWrite) := by
  intro l
  induction l with
  | nil =>
    intro st0 st1 h
    simp only [RetryFailed.foldProcess, Except.ok.injEq] at h
    subst h
    rfl
  | cons kv rest ih =>
    intro st0 st1 h
    simp only [RetryFailed.foldProcess] at h
    cases hp : RetryFailed.processEntry env kv.1 st0 with
    | error e => rw [hp] at h; exact absurd h (by simp)
    | ok mid =>
      rw [hp] at h
      exact (ih mid st1 h).trans
        (processEntry_no_progressWrite env kv.1 st0 mid hp)

theorem process_url_immediate_write (env : Env) (book_id url : String)
    (st : GetWiki.RunState) :
    ((GetWiki.process_url env book_id url st).events = st.events ∧
      (GetWiki.process_url env book_id url st).progress = st.progress) ∨
    (∃ evs, (GetWiki.process_url env book_id url st).events = st.events ++ evs ∧
      evs.filter (fun e => e.isProgressWrite) =
        [Event.progressWrite (GetWiki.process_url env book_id url st).progress]) := by
  by_cases hk : hasKey st.progress (book_id ++ "|" ++ url)
  · exact Or.inl ⟨by simp [GetWiki.process_url, hk], by simp [GetWiki.process_url, hk]⟩
  · right
    cases ht : extract_page_title url with
    | none =>
      simp only [GetWiki.process_url, hk, Bool.false_eq_true, if_false, ht]
      exact ⟨_, rfl, by simp [List.filter, Event.isProgressWrite]⟩
    | some t =>
      by_cases hf : (GetWiki.fetch_wikipedia_content (env.script url) 0).success
      · by_cases hs : env.saveOk
          ("articles/" ++ (allocate_filename st.counters book_id
            (GetWiki.extract_language_code url)).1)
        · simp only [GetWiki.process_url, hk, Bool.false_eq_true, if_false, ht,
            hf, if_true, hs]
          exact ⟨_, rfl, by simp [List.filter, Event.isProgressWrite]⟩
        · simp only [GetWiki.process_url, hk, Bool.false_eq_true, if_false, ht,
            hf, if_true, hs]
          exact ⟨_, rfl, by simp [List.filter, Event.isProgressWrite]⟩
      · simp only [GetWiki.process_url, hk, Bool.false_eq_true, if_false, ht, hf]
        exact ⟨_, rfl, by simp [List.filter, Event.isProgressWrite]⟩

/-- C2 (amended): the primary pipeline rewrites the checkpoint immediately
after every work item — whenever processing an item emits any events, those
events contain exactly one checkpoint write and it carries the item's
recorded outcome (so interrupting a primary run loses at most the in-flight
item). The retry pipeline never writes the checkpoint inside its loop; a
retry run performs at most one checkpoint write, after the whole loop
(carrying the final mapping), so interrupting a retry run loses every
outcome recorded during that run. -/
theorem checkpoint_persistence_spec :
    (∀ (env : Env) (book_id url : String) (st : GetWiki.RunState),
      ((GetWiki.process_url env book_id url st).events = st.events ∧
        (GetWiki.process_url env book_id url st).progress = st.progress) ∨
      (∃ evs,
        (GetWiki.process_url env book_id url st).events = st.events ++ evs ∧
        evs.filter (fun e => e.isProgressWrite) =
          [Event.progressWrite (GetWiki.process_url env book_id url st).progress])) ∧
    (∀ (env : Env) (key : String) (st st' : RetryFailed.RetryState),
      RetryFailed.processEntry env key st = .ok st' →
      st'.events.filter (fun e => e.isProgressWrite) =
        st.events.filter (fun e => e.isProgressWrite)) ∧
    (∀ (env : Env) (file : FileState Progress) (files : Option (List String))
      (st : RetryFailed.RetryState),
      RetryFailed.runMain env file files = .ok st →
      st.events.filter (fun e => e.isProgressWrite) = [] ∨
      st.events.filter (fun e => e.isProgressWrite) =
        [Event.progressWrite st.progress]) := by
  refine ⟨process_url_immediate_write, processEntry_no_progressWrite, ?_⟩
  intro env file files st h
  unfold RetryFailed.runMain at h
  cases hl : RetryFailed.load_progress file with
  | error e =>
    simp only [hl] at h
    exact absurd h (by simp)
  | ok progress =>
    simp only [hl] at h
    by_cases he : (progress.filter (fun kv => kv.2.status == "failed")).isEmpty
    · rw [if_pos he] at h
      simp only [Except.ok.injEq] at h
      subst h
      exact Or.inl rfl
    · rw [if_neg he] at h
      split at h
      · exact absurd h (by simp)
      · rename_i st1 heq
        simp only [Except.ok.injEq] at h
        subst h
        right
        simp only [List.filter_append]
        rw [foldProcess_no_progressWrite env _ _ _ heq]
        simp [List.filter, Event.isProgressWrite]

/-- Witness for C2 (amended) at concrete inputs: a retry item whose URL has
no extractable title is recorded without any checkpoint write, and a retry
run with no failed entries performs no checkpoint write at all. -/
theorem checkpoint_persistence_spec_witness :
    RetryFailed.processEntry
        ⟨fun _ _ => RespEvent.timeout, fun _ => RevOutcome.noRevisions,
         fun _ => true, fun _ => "t"⟩ "1|nourl"
        ⟨[], fun _ => 0, 0, 0, 0, []⟩ =
      Except.ok ⟨[], fun _ => 0, 0, 1, 0, []⟩ ∧
    (([] : List Event).filter (fun e => e.isProgressWrite) =
      ([] : List Event).filter (fun e => e.isProgressWrite)) ∧
    RetryFailed.runMain
        ⟨fun _ _ => RespEvent.timeout, fun _ => RevOutcome.noRevisions,
         fun _ => true, fun _ => "t"⟩ (FileState.ok []) none =
      Except.ok ⟨[], fun _ => 0, 0, 0, 0, []⟩ ∧
    (([] : List Event).filter (fun e => e.isProgressWrite) = [] ∨
      ([] : List Event).filter (fun e => e.isProgressWrite) =
        [Event.progressWrite []]) := by
  have h1 : RetryFailed.processEntry
      ⟨fun _ _ => RespEvent.timeout, fun _ => RevOutcome.noRevisions,
       fun _ => true, fun _ => "t"⟩ "1|nourl"
      ⟨[], fun _ => 0, 0, 0, 0, []⟩ =
      Except.ok ⟨[], fun _ => 0, 0, 1, 0, []⟩ := rfl
  have h2 : RetryFailed.runMain
      ⟨fun _ _ => RespEvent.timeout, fun _ => RevOutcome.noRevisions,
       fun _ => true, fun _ => "t"⟩ (FileState.ok []) none =
      Except.ok ⟨[], fun _ => 0, 0, 0, 0, []⟩ := rfl
  exact ⟨h1, checkpoint_persistence_spec.2.1 _ "1|nourl" _ _ h1, h2,
    checkpoint_persistence_spec.2.2 _ (FileState.ok []) none _ h2⟩

/-! ### C7: filename allocation. -/

/-- The filename produced by the `n`-th allocation for a `(book_id, lang)`
pair whose counter started at zero. -/
def filenameFor (book_id lang : String) (n : Nat) : String :=
  if n = 1 then book_id ++ "_" ++ lang ++ ".txt"
  else book_id ++ "_" ++ lang ++ "_" ++ natToString n ++ ".txt"

/-- `N` successive allocations for one `(book_id, lang)` pair within a run. -/
def allocSeq (book_id lang : String) : (String → Nat) → Nat → List String
  | _, 0 => []
  | counters, n+1 =>
    let a := allocate_filename counters book_id lang
    a.1 :: allocSeq book_id lang a.2 n

theorem allocate_filename_fst (counters : String → Nat) (book_id lang : String) :
    (allocate_filename counters book_id lang).1 =
      filenameFor book_id lang (counters (book_id ++ "_" ++ lang) + 1) := rfl

theorem natToString_length_pos (n : Nat) : 1 ≤ (natToString n).length := by
  have h := natToString_ne_nil n
  cases hd : (natToString n).data with
  | nil => exact absurd hd h
  | cons c cs =>
    show 1 ≤ (natToString n).data.length
    rw [hd]
    simp

theorem filenameFor_inj (book_id lang : String) :
    ∀ m n, 1 ≤ m → 1 ≤ n → filenameFor book_id lang m = filenameFor book_id lang n →
      m = n := by
  have hlen : ∀ k, 2 ≤ k →
      (filenameFor book_id lang k).length =
        book_id.length + lang.length + 6 + (natToString k).length := by
    intro k hk
    have hne : k ≠ 1 := by omega
    simp [filenameFor, hne, String.length_append,
      show ("_" : String).length = 1 from rfl,
      show (".txt" : String).length = 4 from rfl]
    omega
  have hbase : (filenameFor book_id lang 1).length =
      book_id.length + lang.length + 5 := by
    simp [filenameFor, String.length_append,
      show ("_" : String).length = 1 from rfl,
      show (".txt" : String).length = 4 from rfl]
    omega
  intro m n hm hn h
  rcases Nat.lt_or_ge m 2 with hm2 | hm2 <;> rcases Nat.lt_or_ge n 2 with hn2 | hn2
  · omega
  · exfalso
    have h1 : m = 1 := by omega
    subst h1
    have := congrArg String.length h
    rw [hbase, hlen n hn2] at this
    have := natToString_length_pos n
    omega
  · exfalso
    have h1 : n = 1 := by omega
    subst h1
    have := congrArg String.length h
    rw [hbase, hlen m hm2] at this
    have := natToString_length_pos m
    omega
  · have hm1 : m ≠ 1 := by omega
    have hn1 : n ≠ 1 := by omega
    rw [filenameFor, filenameFor, if_neg hm1, if_neg hn1] at h
    have hd := congrArg String.data h
    have hform : ∀ k, (book_id ++ "_" ++ lang ++ "_" ++ natToString k ++ ".txt").data =
        (book_id ++ "_" ++ lang ++ "_").data ++
          ((natToString k).data ++ (".txt" : String).data) := by
      intro k
      show (book_id.data ++ "_".data ++ lang.data ++ "_".data ++
        (natToString k).data ++ ".txt".data) = _
      simp [List.append_assoc]
    rw [hform m, hform n] at hd
    have hd2 := List.append_cancel_left hd
    have hd3 := List.append_cancel_right hd2
    have := congrArg decListVal hd3
    rwa [show (natToString m).data = toDecAux (m+1) m from rfl,
      show (natToString n).data = toDecAux (n+1) n from rfl,
      decListVal_toDecAux _ _ (Nat.lt_succ_self m),
      decListVal_toDecAux _ _ (Nat.lt_succ_self n)] at this

theorem allocate_filename_snd_self (counters : String → Nat) (book_id lang : String) :
    (allocate_filename counters book_id lang).2 (book_id ++ "_" ++ lang) =
      counters (book_id ++ "_" ++ lang) + 1 := by
  simp [allocate_filename]

theorem allocSeq_eq (book_id lang : String) :
    ∀ (N : Nat) (counters : String → Nat),
      allocSeq book_id lang counters N =
        (List.range N).map
          (fun i => filenameFor book_id lang
            (counters (book_id ++ "_" ++ lang) + i + 1)) := by
  intro N
  induction N with
  | zero => intro counters; rfl
  | succ N ih =>
    intro counters
    rw [show allocSeq book_id lang counters (N+1) =
      (allocate_filename counters book_id lang).1 ::
        allocSeq book_id lang (allocate_filename counters book_id lang).2 N from rfl]
    rw [ih]
    rw [List.range_succ_eq_map, List.map_cons, List.map_map]
    congr 1
    apply List.map_congr_left
    intro i _
    show filenameFor book_id lang
        ((allocate_filename counters book_id lang).2 (book_id ++ "_" ++ lang) + i + 1) =
      filenameFor book_id lang
        (counters (book_id ++ "_" ++ lang) + (i + 1) + 1)
    rw [allocate_filename_snd_self]
    exact congrArg (filenameFor book_id lang) (by omega)

/-- C7: within one run, allocations for a `(book_id, lang)` pair whose
counter starts at zero produce `"{book_id}_{lang}.txt"` first and
`"{book_id}_{lang}_{n}.txt"` for the n-th allocation (n ≥ 2); N successive
allocations are pairwise distinct; and concretely, processing book 100 with
two `en` URLs that both fetch successfully saves `articles/100_en.txt` and
then `articles/100_en_2.txt`, which do not collide. -/
theorem filename_allocation_spec :
    (∀ book_id lang : String,
      filenameFor book_id lang 1 = book_id ++ "_" ++ lang ++ ".txt") ∧
    (∀ (book_id lang : String) (n : Nat), 2 ≤ n →
      filenameFor book_id lang n =
        book_id ++ "_" ++ lang ++ "_" ++ natToString n ++ ".txt") ∧
    (∀ (book_id lang : String) (counters : String → Nat) (N : Nat),
      counters (book_id ++ "_" ++ lang) = 0 →
      allocSeq book_id lang counters N =
        (List.range N).map (fun i => filenameFor book_id lang (i + 1)) ∧
      (allocSeq book_id lang counters N).Nodup) ∧
    ((GetWiki.runMain
        ⟨fun _ _ => RespEvent.httpResp 200 true
            [⟨some 1, false, false, none, "BODY", false⟩],
         fun _ => RevOutcome.noRevisions, fun _ => true, fun _ => "t1"⟩
        ["100,https://en.wikipedia.org/wiki/A https://en.wikipedia.org/wiki/B"]
        []).events.filter
      (fun e => match e with | Event.articleWrite _ _ => true | _ => false) =
      [Event.articleWrite "articles/100_en.txt" true,
       Event.articleWrite "articles/100_en_2.txt" true] ∧
      ("100_en.txt" : String) ≠ "100_en_2.txt") := by
  refine ⟨?_, ?_, ?_, ?_, ?_⟩
  · intro book_id lang; rfl
  · intro book_id lang n hn
    have : n ≠ 1 := by omega
    simp [filenameFor, this]
  · intro book_id lang counters N h0
    have hmap : allocSeq book_id lang counters N =
        (List.range N).map (fun i => filenameFor book_id lang (i + 1)) := by
      rw [allocSeq_eq, h0]
      apply List.map_congr_left
      intro i _
      exact congrArg (filenameFor book_id lang) (by omega)
    refine ⟨hmap, ?_⟩
    rw [hmap]
    refine List.Nodup.map_on ?_ (List.nodup_range N)
    intro x _ y _ hxy
    have := filenameFor_inj book_id lang (x + 1) (y + 1) (by omega) (by omega) hxy
    omega
  · have hf : GetWiki.fetch_wikipedia_content
        (fun _ => RespEvent.httpResp 200 true
          [⟨some 1, false, false, none, "BODY", false⟩]) 0 =
        ⟨true, "BODY", [], 1⟩ := by
      simp [GetWiki.fetch_wikipedia_content]
    simp only [GetWiki.runMain, GetWiki.process_line, GetWiki.process_url]
    simp only [hf]
    decide
  · decide

/-- Witness for C7 at concrete inputs: three allocations for `(100, en)`
from a zero counter. -/
theorem filename_allocation_spec_witness :
    allocSeq "100" "en" (fun _ => 0) 3 =
      ["100_en.txt", "100_en_2.txt", "100_en_3.txt"] ∧
    (allocSeq "100" "en" (fun _ => 0) 3).Nodup := by
  have h := filename_allocation_spec.2.2.1 "100" "en" (fun _ => 0) 3 rfl
  exact ⟨h.1.trans (by decide), h.2⟩

/-! ### C3: counter seeding from the output directory. -/

theorem takeWhile_append_cons {p : Char → Bool} {a : List Char}
    (ha : ∀ c ∈ a, p c = true) {c : Char} (hc : p c = false) (t : List Char) :
    (a ++ c :: t).takeWhile p = a := by
  induction a with
  | nil => simp [List.takeWhile_cons, hc]
  | cons x xs ih =>
    have hx : p x = true := ha x (by simp)
    rw [List.cons_append, List.takeWhile_cons_of_pos hx,
      ih (fun d hd => ha d (by simp [hd]))]

theorem string_ne_empty_data {s : String} (h : s ≠ "") : s.data ≠ [] := by
  intro hd
  exact h (congrArg String.mk hd)

theorem parse_filenameFor (id lang : String) (n : Nat) (hn : 1 ≤ n)
    (hid_ne : id ≠ "") (hid : ∀ c ∈ id.data, isDigitChar c = true)
    (hlang_ne : lang ≠ "") (hlang : ∀ c ∈ lang.data, isLangCharRetry c = true) :
    RetryFailed.parseArticleFilename (filenameFor id lang n) =
      some (id, lang, n) := by
  have hid_data := string_ne_empty_data hid_ne
  have hlang_data := string_ne_empty_data hlang_ne
  by_cases h1 : n = 1
  · subst h1
    have hdata : (filenameFor id lang 1).data =
        id.data ++ '_' :: (lang.data ++ ['.', 't', 'x', 't']) := by
      show ((id.data ++ ['_']) ++ lang.data) ++ ['.', 't', 'x', 't'] = _
      simp
    simp only [RetryFailed.parseArticleFilename, hdata]
    rw [takeWhile_append_cons hid (by decide) _]
    simp only [List.isEmpty_iff, hid_data, if_false]
    rw [show (id.data ++ '_' :: (lang.data ++ ['.', 't', 'x', 't'])).drop id.data.length
        = '_' :: (lang.data ++ ['.', 't', 'x', 't']) from List.drop_left id.data _]
    simp only [reduceIte]
    rw [takeWhile_append_cons hlang (by decide) _]
    simp only [List.isEmpty_iff, hlang_data, if_false]
    rw [List.drop_left lang.data _]
    simp
  · have hdata : (filenameFor id lang n).data =
        id.data ++ '_' :: (lang.data ++ '_' ::
          ((natToString n).data ++ ['.', 't', 'x', 't'])) := by
      rw [show filenameFor id lang n =
        id ++ "_" ++ lang ++ "_" ++ natToString n ++ ".txt" from by
          simp [filenameFor, h1]]
      show ((((id.data ++ ['_']) ++ lang.data) ++ ['_']) ++ (natToString n).data)
          ++ ['.', 't', 'x', 't'] = _
      simp
    simp only [RetryFailed.parseArticleFilename, hdata]
    rw [takeWhile_append_cons hid (by decide) _]
    simp only [List.isEmpty_iff, hid_data, if_false]
    rw [show (id.data ++ '_' :: (lang.data ++ '_' ::
        ((natToString n).data ++ ['.', 't', 'x', 't']))).drop id.data.length
        = '_' :: (lang.data ++ '_' :: ((natToString n).data ++ ['.', 't', 'x', 't']))
        from List.drop_left id.data _]
    simp only [reduceIte]
    rw [takeWhile_append_cons hlang (by decide) _]
    simp only [List.isEmpty_iff, hlang_data, if_false]
    rw [List.drop_left lang.data _]
    simp only [reduceIte]
    rw [takeWhile_append_cons (natToString_all_digits n) (by decide) _]
    rw [List.drop_left (natToString n).data _]
    have hval : decListVal (natToString n).data = n :=
      decListVal_toDecAux _ _ (Nat.lt_succ_self n)
    simp [natToString_ne_nil n, hval, natToString]
    exact ⟨natToString_ne_nil n, hval⟩

theorem seed_counters_step_ge (c0 : String → Nat) (g : String) (k : String) :
    c0 k ≤ (match RetryFailed.parseArticleFilename g with
      | some (book_id, lang, count) =>
        fun k' => if k' = book_id ++ "_" ++ lang then max (c0 k') count else c0 k'
      | none => c0) k := by
  cases RetryFailed.parseArticleFilename g with
  | none => exact le_refl _
  | some r =>
    obtain ⟨b, l, cnt⟩ := r
    by_cases hk : k = b ++ "_" ++ l <;> simp [hk]

theorem seed_counters_foldl_mono :
    ∀ (files : List String) (c0 : String → Nat) (k : String),
      c0 k ≤ (files.foldl (fun counters fname =>
        match RetryFailed.parseArticleFilename fname with
        | some (book_id, lang, count) =>
          fun k' => if k' = book_id ++ "_" ++ lang then max (counters k') count
            else counters k'
        | none => counters) c0) k := by
  intro files
  induction files with
  | nil => intro c0 k; exact le_refl _
  | cons g rest ih =>
    intro c0 k
    exact le_trans (seed_counters_step_ge c0 g k) (ih _ k)

theorem seed_counters_ge :
    ∀ (files : List String) (c0 : String → Nat) (f : String), f ∈ files →
      ∀ id lang n, RetryFailed.parseArticleFilename f = some (id, lang, n) →
      n ≤ (files.foldl (fun counters fname =>
        match RetryFailed.parseArticleFilename fname with
        | some (book_id, lang, count) =>
          fun k' => if k' = book_id ++ "_" ++ lang then max (counters k') count
            else counters k'
        | none => counters) c0) (id ++ "_" ++ lang) := by
  intro files
  induction files with
  | nil => intro c0 f hf; simp at hf
  | cons g rest ih =>
    intro c0 f hf id lang n hparse
    rcases List.mem_cons.mp hf with hf | hf
    · subst hf
      refine le_trans ?_ (seed_counters_foldl_mono rest _ (id ++ "_" ++ lang))
      simp only [hparse]
      simp
    · exact ih _ f hf id lang n hparse

/-- C3 counterexample: a primary-pipeline run whose checkpoint is empty (for
example after the fail-open loader degraded a corrupt checkpoint) allocates
and writes exactly `articles/100_en.txt` for book 100 — the very filename a
prior run would have produced for that pair (it parses back as
`("100", "en", 1)`) — because the primary pipeline starts its counters at
zero and never scans the output directory. -/
theorem allocator_restart_counterexample :
    ((GetWiki.runMain
        ⟨fun _ _ => RespEvent.httpResp 200 true
            [⟨some 1, false, false, none, "BODY", false⟩],
         fun _ => RevOutcome.noRevisions, fun _ => true, fun _ => "t1"⟩
        ["100,https://en.wikipedia.org/wiki/B"] []).events.filter
      (fun e => match e with | Event.articleWrite _ _ => true | _ => false) =
      [Event.articleWrite "articles/100_en.txt" true]) ∧
    RetryFailed.parseArticleFilename "100_en.txt" = some ("100", "en", 1) := by
  constructor
  · have hf : GetWiki.fetch_wikipedia_content
        (fun _ => RespEvent.httpResp 200 true
          [⟨some 1, false, false, none, "BODY", false⟩]) 0 =
        ⟨true, "BODY", [], 1⟩ := by
      simp [GetWiki.fetch_wikipedia_content]
    simp only [GetWiki.runMain, GetWiki.process_line, GetWiki.process_url]
    simp only [hf]
    decide
  · decide

/-- C3 (amended): only the retry pipeline seeds counters from the output
directory: the seeded counter for each `(book_id, lang)` pair is at least
every `n` parsed from an existing filename, so an allocation from the
seeded counters (for a digit book id and a `[a-z-]` language tag) never
equals an existing filename. The primary pipeline starts every counter at
zero on every run (no directory scan), so it can re-allocate a prior run's
filename. -/
theorem counter_seeding_spec :
    (∀ (files : List String) (f : String), f ∈ files →
      ∀ id lang n, RetryFailed.parseArticleFilename f = some (id, lang, n) →
        n ≤ RetryFailed.seed_counters files (id ++ "_" ++ lang)) ∧
    (∀ (files : List String) (id lang : String), id ≠ "" →
      (∀ c ∈ id.data, isDigitChar c = true) → lang ≠ "" →
      (∀ c ∈ lang.data, isLangCharRetry c = true) →
      (allocate_filename (RetryFailed.seed_counters files) id lang).1 ∉ files) ∧
    (∀ k, GetWiki.initial_language_counters k = 0) := by
  have hmain : ∀ (files : List String) (f : String), f ∈ files →
      ∀ id lang n, RetryFailed.parseArticleFilename f = some (id, lang, n) →
        n ≤ RetryFailed.seed_counters files (id ++ "_" ++ lang) := by
    intro files f hf id lang n hparse
    exact seed_counters_ge files _ f hf id lang n hparse
  refine ⟨hmain, ?_, fun _ => rfl⟩
  intro files id lang hid_ne hid hlang_ne hlang hmem
  have hfst : (allocate_filename (RetryFailed.seed_counters files) id lang).1 =
      filenameFor id lang
        (RetryFailed.seed_counters files (id ++ "_" ++ lang) + 1) :=
    allocate_filename_fst _ _ _
  rw [hfst] at hmem
  have hparse := parse_filenameFor id lang
    (RetryFailed.seed_counters files (id ++ "_" ++ lang) + 1) (by omega)
    hid_ne hid hlang_ne hlang
  have := hmain files _ hmem id lang _ hparse
  omega

/-- Witness for C3 (amended) at concrete inputs. -/
theorem counter_seeding_spec_witness :
    (3 ≤ RetryFailed.seed_counters ["100_en.txt", "100_en_3.txt"]
      ("100" ++ "_" ++ "en")) ∧
    (allocate_filename (RetryFailed.seed_counters ["100_en.txt", "100_en_3.txt"])
      "100" "en").1 ∉ (["100_en.txt", "100_en_3.txt"] : List String) ∧
    GetWiki.initial_language_counters "100_en" = 0 := by
  refine ⟨?_, ?_, ?_⟩
  · exact counter_seeding_spec.1 ["100_en.txt", "100_en_3.txt"] "100_en_3.txt"
      (by decide) "100" "en" 3 (by decide)
  · exact counter_seeding_spec.2.1 ["100_en.txt", "100_en_3.txt"] "100" "en"
      (by decide) (by decide) (by decide) (by decide)
  · exact counter_seeding_spec.2.2 "100_en"

/-! ### C6: idempotence of the primary pipeline. -/

theorem hasKey_upsert_mono {p : Progress} {k' : String} (k : String) (v : Entry)
    (h : hasKey p k' = true) : hasKey (upsert p k v) k' = true := by
  unfold upsert
  by_cases hin : p.any (fun kv => kv.1 == k)
  · rw [if_pos hin]
    unfold hasKey at h ⊢
    rw [List.any_eq_true] at h ⊢
    obtain ⟨kv, hkv, hb⟩ := h
    by_cases hk : kv.1 == k
    · exact ⟨(k, v), List.mem_map.mpr ⟨kv, hkv, by simp [hk]⟩, by
        have : kv.1 = k := by simpa using hk
        simpa [← this] using hb⟩
    · exact ⟨kv, List.mem_map.mpr ⟨kv, hkv, by simp [hk]⟩, hb⟩
  · rw [if_neg hin]
    unfold hasKey at h ⊢
    rw [List.any_eq_true] at h ⊢
    obtain ⟨kv, hkv, hb⟩ := h
    exact ⟨kv, List.mem_append_left _ hkv, hb⟩

theorem hasKey_upsert_self (p : Progress) (k : String) (v : Entry) :
    hasKey (upsert p k v) k = true := by
  unfold upsert
  by_cases hin : p.any (fun kv => kv.1 == k)
  · rw [if_pos hin]
    unfold hasKey at hin ⊢
    rw [List.any_eq_true] at hin ⊢
    obtain ⟨kv, hkv, hb⟩ := hin
    exact ⟨(k, v), List.mem_map.mpr ⟨kv, hkv, by simp [hb]⟩, by simp⟩
  · rw [if_neg hin]
    unfold hasKey
    rw [List.any_eq_true]
    exact ⟨(k, v), List.mem_append_right _ (by simp), by simp⟩

theorem process_url_progress_upsert (env : Env) (book_id url : String)
    (st : GetWiki.RunState)
    (hk : ¬hasKey st.progress (book_id ++ "|" ++ url) = true) :
    ∃ v, (GetWiki.process_url env book_id url st).progress =
      upsert st.progress (book_id ++ "|" ++ url) v := by
  cases ht : extract_page_title url with
  | none =>
    exact ⟨⟨"failed", none, env.now st.tick⟩,
      by simp [GetWiki.process_url, hk, ht, GetWiki.save_progress_entry]⟩
  | some t =>
    by_cases hf : (GetWiki.fetch_wikipedia_content (env.script url) 0).success
    · by_cases hs : env.saveOk
        ("articles/" ++ (allocate_filename st.counters book_id
          (GetWiki.extract_language_code url)).1)
      · exact ⟨⟨"success", some (allocate_filename st.counters book_id
            (GetWiki.extract_language_code url)).1, env.now st.tick⟩,
          by simp [GetWiki.process_url, hk, ht, hf, hs, GetWiki.save_progress_entry]⟩
      · exact ⟨⟨"failed", none, env.now st.tick⟩,
          by simp [GetWiki.process_url, hk, ht, hf, hs, GetWiki.save_progress_entry]⟩
    · exact ⟨⟨"failed", none, env.now st.tick⟩,
        by simp [GetWiki.process_url, hk, ht, hf, GetWiki.save_progress_entry]⟩

theorem process_url_progress_cases (env : Env) (book_id url : String)
    (st : GetWiki.RunState) :
    (GetWiki.process_url env book_id url st).progress = st.progress ∨
    ∃ v, (GetWiki.process_url env book_id url st).progress =
      upsert st.progress (book_id ++ "|" ++ url) v := by
  by_cases hk : hasKey st.progress (book_id ++ "|" ++ url)
  · exact Or.inl (by simp [GetWiki.process_url, hk])
  · exact Or.inr (process_url_progress_upsert env book_id url st hk)

theorem process_url_mono (env : Env) (book_id url : String)
    (st : GetWiki.RunState) (k : String) (h : hasKey st.progress k = true) :
    hasKey (GetWiki.process_url env book_id url st).progress k = true := by
  rcases process_url_progress_cases env book_id url st with hc | ⟨v, hc⟩
  · rw [hc]; exact h
  · rw [hc]; exact hasKey_upsert_mono _ v h

theorem process_url_self (env : Env) (book_id url : String)
    (st : GetWiki.RunState) :
    hasKey (GetWiki.process_url env book_id url st).progress
      (book_id ++ "|" ++ url) = true := by
  by_cases hk : hasKey st.progress (book_id ++ "|" ++ url)
  · exact process_url_mono env book_id url st _ hk
  · obtain ⟨v, hc⟩ := process_url_progress_upsert env book_id url st hk
    rw [hc]
    exact hasKey_upsert_self _ _ v

theorem foldl_urls_mono (env : Env) (book_id : String) :
    ∀ (urls : List String) (st : GetWiki.RunState) (k : String),
      hasKey st.progress k = true →
      hasKey ((urls.foldl (fun s u => GetWiki.process_url env book_id u s)
        st).progress) k = true := by
  intro urls
  induction urls with
  | nil => intro st k h; exact h
  | cons u rest ih =>
    intro st k h
    exact ih _ k (process_url_mono env book_id u st k h)

theorem foldl_urls_adds (env : Env) (book_id : String) :
    ∀ (urls : List String) (st : GetWiki.RunState) (u : String), u ∈ urls →
      hasKey ((urls.foldl (fun s u => GetWiki.process_url env book_id u s)
        st).progress) (book_id ++ "|" ++ u) = true := by
  intro urls
  induction urls with
  | nil => intro st u h; simp at h
  | cons u0 rest ih =>
    intro st u h
    rcases List.mem_cons.mp h with h | h
    · subst h
      exact foldl_urls_mono env book_id rest _ _
        (process_url_self env book_id u st)
    · exact ih _ u h

theorem process_line_mono (env : Env) (line : String) (st : GetWiki.RunState)
    (k : String) (h : hasKey st.progress k = true) :
    hasKey (GetWiki.process_line env line st).progress k = true := by
  unfold GetWiki.process_line
  by_cases he : (trimChars line.data).isEmpty
  · rw [if_pos he]; exact h
  · rw [if_neg he]
    cases hsp : splitOnceChar ',' (trimChars line.data) with
    | none => exact h
    | some p => exact foldl_urls_mono env _ _ st k h

theorem process_line_adds (env : Env) (line : String) (st : GetWiki.RunState) :
    ∀ k ∈ GetWiki.lineKeys line,
      hasKey (GetWiki.process_line env line st).progress k = true := by
  intro k hk
  unfold GetWiki.lineKeys at hk
  unfold GetWiki.process_line
  by_cases he : (trimChars line.data).isEmpty
  · rw [if_pos he] at hk ⊢
    simp at hk
  · rw [if_neg he] at hk ⊢
    cases hsp : splitOnceChar ',' (trimChars line.data) with
    | none => rw [hsp] at hk; simp at hk
    | some p =>
      rw [hsp] at hk
      obtain ⟨u, hu, rfl⟩ := List.mem_map.mp hk
      exact foldl_urls_adds env _ _ st u hu

theorem bump_progress (st : GetWiki.RunState) :
    (⟨st.progress,
      ⟨st.stats.total_books, st.stats.processed_books + 1, st.stats.total_urls,
        st.stats.successful, st.stats.failed, st.stats.skipped,
        st.stats.failed_book_ids⟩,
      st.counters, st.tick, st.events⟩ : GetWiki.RunState).progress =
      st.progress := rfl

theorem foldl_lines_mono (env : Env) :
    ∀ (ls : List String) (st : GetWiki.RunState) (k : String),
      hasKey st.progress k = true →
      hasKey ((ls.foldl (fun st line =>
        GetWiki.process_line env line
          ⟨st.progress,
            ⟨st.stats.total_books, st.stats.processed_books + 1,
              st.stats.total_urls, st.stats.successful, st.stats.failed,
              st.stats.skipped, st.stats.failed_book_ids⟩,
            st.counters, st.tick, st.events⟩) st).progress) k = true := by
  intro ls
  induction ls with
  | nil => intro st k h; exact h
  | cons l rest ih =>
    intro st k h
    exact ih _ k (process_line_mono env l _ k h)

theorem foldl_lines_adds (env : Env) :
    ∀ (ls : List String) (st : GetWiki.RunState) (line : String), line ∈ ls →
      ∀ k ∈ GetWiki.lineKeys line,
      hasKey ((ls.foldl (fun st line =>
        GetWiki.process_line env line
          ⟨st.progress,
            ⟨st.stats.total_books, st.stats.processed_books + 1,
              st.stats.total_urls, st.stats.successful, st.stats.failed,
              st.stats.skipped, st.stats.failed_book_ids⟩,
            st.counters, st.tick, st.events⟩) st).progress) k = true := by
  intro ls
  induction ls with
  | nil => intro st line h; simp at h
  | cons l rest ih =>
    intro st line h k hk
    rcases List.mem_cons.mp h with h | h
    · subst h
      exact foldl_lines_mono env rest _ k (process_line_adds env line _ k hk)
    · exact ih _ line h k hk

theorem runMain_keys (env : Env) (lines : List String) (p0 : Progress)
    (line : String) (hline : line ∈ lines) :
    ∀ k ∈ GetWiki.lineKeys line,
      hasKey (GetWiki.runMain env lines p0).progress k = true := by
  intro k hk
  exact foldl_lines_adds env lines _ line hline k hk

theorem process_url_skip (env : Env) (book_id url : String)
    (st : GetWiki.RunState)
    (h : hasKey st.progress (book_id ++ "|" ++ url) = true) :
    (GetWiki.process_url env book_id url st).progress = st.progress ∧
    (GetWiki.process_url env book_id url st).events = st.events ∧
    (GetWiki.process_url env book_id url st).stats.successful =
      st.stats.successful := by
  refine ⟨?_, ?_, ?_⟩ <;> simp [GetWiki.process_url, h]

theorem foldl_urls_all_present (env : Env) (book_id : String) :
    ∀ (urls : List String) (st : GetWiki.RunState),
      (∀ u ∈ urls, hasKey st.progress (book_id ++ "|" ++ u) = true) →
      ((urls.foldl (fun s u => GetWiki.process_url env book_id u s) st).progress
        = st.progress ∧
      (urls.foldl (fun s u => GetWiki.process_url env book_id u s) st).events
        = st.events ∧
      (urls.foldl (fun s u => GetWiki.process_url env book_id u s)
        st).stats.successful = st.stats.successful) := by
  intro urls
  induction urls with
  | nil => intro st _; exact ⟨rfl, rfl, rfl⟩
  | cons u rest ih =>
    intro st h
    have hu := h u (by simp)
    obtain ⟨hp, he, hs⟩ := process_url_skip env book_id u st hu
    have hrest : ∀ u' ∈ rest,
        hasKey (GetWiki.process_url env book_id u st).progress
          (book_id ++ "|" ++ u') = true := by
      intro u' hu'
      rw [hp]
      exact h u' (by simp [hu'])
    obtain ⟨ihp, ihe, ihs⟩ := ih (GetWiki.process_url env book_id u st) hrest
    exact ⟨ihp.trans hp, ihe.trans he, ihs.trans hs⟩

theorem process_line_all_present (env : Env) (line : String)
    (st : GetWiki.RunState)
    (h : ∀ k ∈ GetWiki.lineKeys line, hasKey st.progress k = true) :
    (GetWiki.process_line env line st).progress = st.progress ∧
    (GetWiki.process_line env line st).events = st.events ∧
    (GetWiki.process_line env line st).stats.successful =
      st.stats.successful := by
  unfold GetWiki.process_line
  unfold GetWiki.lineKeys at h
  by_cases he : (trimChars line.data).isEmpty
  · rw [if_pos he]; exact ⟨rfl, rfl, rfl⟩
  · rw [if_neg he]
    rw [if_neg he] at h
    cases hsp : splitOnceChar ',' (trimChars line.data) with
    | none => exact ⟨rfl, rfl, rfl⟩
    | some p =>
      rw [hsp] at h
      refine foldl_urls_all_present env _ _ st ?_
      intro u hu
      exact h _ (List.mem_map.mpr ⟨u, hu, rfl⟩)

theorem foldl_lines_all_present (env : Env) :
    ∀ (ls : List String) (st : GetWiki.RunState),
      (∀ line ∈ ls, ∀ k ∈ GetWiki.lineKeys line, hasKey st.progress k = true) →
      (((ls.foldl (fun st line =>
        GetWiki.process_line env line
          ⟨st.progress,
            ⟨st.stats.total_books, st.stats.processed_books + 1,
              st.stats.total_urls, st.stats.successful, st.stats.failed,
              st.stats.skipped, st.stats.failed_book_ids⟩,
            st.counters, st.tick, st.events⟩) st).progress = st.progress) ∧
      ((ls.foldl (fun st line =>
        GetWiki.process_line env line
          ⟨st.progress,
            ⟨st.stats.total_books, st.stats.processed_books + 1,
              st.stats.total_urls, st.stats.successful, st.stats.failed,
              st.stats.skipped, st.stats.failed_book_ids⟩,
            st.counters, st.tick, st.events⟩) st).events = st.events) ∧
      ((ls.foldl (fun st line =>
        GetWiki.process_line env line
          ⟨st.progress,
            ⟨st.stats.total_books, st.stats.processed_books + 1,
              st.stats.total_urls, st.stats.successful, st.stats.failed,
              st.stats.skipped, st.stats.failed_book_ids⟩,
            st.counters, st.tick, st.events⟩) st).stats.successful =
        st.stats.successful)) := by
  intro ls
  induction ls with
  | nil => intro st _; exact ⟨rfl, rfl, rfl⟩
  | cons l rest ih =>
    intro st h
    obtain ⟨hp, he, hs⟩ := process_line_all_present env l
      ⟨st.progress,
        ⟨st.stats.total_books, st.stats.processed_books + 1,
          st.stats.total_urls, st.stats.successful, st.stats.failed,
          st.stats.skipped, st.stats.failed_book_ids⟩,
        st.counters, st.tick, st.events⟩
      (fun k hk => h l (by simp) k hk)
    have hrest : ∀ line ∈ rest, ∀ k ∈ GetWiki.lineKeys line,
        hasKey (GetWiki.process_line env l
          ⟨st.progress,
            ⟨st.stats.total_books, st.stats.processed_books + 1,
              st.stats.total_urls, st.stats.successful, st.stats.failed,
              st.stats.skipped, st.stats.failed_book_ids⟩,
            st.counters, st.tick, st.events⟩).progress k = true := by
      intro line hline k hk
      rw [hp]
      exact h line (by simp [hline]) k hk
    obtain ⟨ihp, ihe, ihs⟩ := ih _ hrest
    exact ⟨ihp.trans hp, ihe.trans he, ihs.trans hs⟩

/-- C6: re-running the primary pipeline on the same input with the
checkpoint produced by a first run changes nothing: every key is found in
the checkpoint and skipped before any network work, so the second run emits
no events at all (no fetch, no article write, no checkpoint write), records
zero successful downloads, and leaves the checkpoint content identical. -/
theorem pipeline_idempotent (lines : List String) (env1 env2 : Env)
    (p0 : Progress) :
    (GetWiki.runMain env2 lines
      (GetWiki.runMain env1 lines p0).progress).progress =
      (GetWiki.runMain env1 lines p0).progress ∧
    (GetWiki.runMain env2 lines
      (GetWiki.runMain env1 lines p0).progress).events = [] ∧
    (GetWiki.runMain env2 lines
      (GetWiki.runMain env1 lines p0).progress).stats.successful = 0 := by
  have hkeys : ∀ line ∈ lines, ∀ k ∈ GetWiki.lineKeys line,
      hasKey (GetWiki.runMain env1 lines p0).progress k = true :=
    fun line hline k hk => runMain_keys env1 lines p0 line hline k hk
  exact foldl_lines_all_present env2 lines
    ⟨(GetWiki.runMain env1 lines p0).progress,
      ⟨(lines.filter (fun l => !(trimChars l.data).isEmpty)).length,
        0, 0, 0, 0, 0, []⟩,
      GetWiki.initial_language_counters, 0, []⟩ hkeys

/-! ### C8: parse_claude_response and result routing
(validate_wiki_articles.py lines 184-201 and 419-431).

`re.IGNORECASE` matching is modelled by comparing characters through
`asciiLowerN` (ASCII lower-casing on code points, which is what IGNORECASE
does on these ASCII patterns). `re.search` scans for the leftmost position
where the whole pattern matches; `\s*` is greedy, and since none of the
alternatives begins with a whitespace character, only the maximal
whitespace run can precede a token match. `group(1).upper()` of a
case-insensitively matched alternative is that alternative's canonical
uppercase spelling, so the model returns the canonical token directly. -/

/-- ASCII lower-case of a character, as a code point. -/
def asciiLowerN (c : Char) : Nat :=
  if 65 ≤ c.toNat ∧ c.toNat ≤ 90 then c.toNat + 32 else c.toNat

/-- Match the (lowercase, concrete) token `tok` case-insensitively at the
start of `s`, returning the remainder. -/
def stripTokenCI : List Char → List Char → Option (List Char)
  | [], s => some s
  | _ :: _, [] => none
  | t :: ts, c :: cs => if asciiLowerN c = t.toNat then stripTokenCI ts cs else none

structure ParsedResponse where
  is_match : Bool
  confidence : String
  reasoning : String
deriving DecidableEq, Repr

namespace ValidateWiki

/-- `re.search(r'VERDICT:\s*(YES|NO)', text, re.IGNORECASE)`: `some true`
for a YES match, `some false` for NO, `none` when absent. -/
def findVerdict : List Char → Option Bool
  | [] => none
  | c :: rest =>
    match stripTokenCI "verdict:".data (c :: rest) with
    | some r =>
      let r' := r.dropWhile isSpaceChar
      match stripTokenCI "yes".data r' with
      | some _ => some true
      | none =>
        match stripTokenCI "no".data r' with
        | some _ => some false
        | none => findVerdict rest
    | none => findVerdict rest

/-- `re.search(r'CONFIDENCE:\s*(HIGH|MEDIUM|LOW)', text, re.IGNORECASE)`,
returning the canonical uppercase token (`group(1).upper()`). -/
def findConfidence : List Char → Option String
  | [] => none
  | c :: rest =>
    match stripTokenCI "confidence:".data (c :: rest) with
    | some r =>
      let r' := r.dropWhile isSpaceChar
      match stripTokenCI "high".data r' with
      | some _ => some "HIGH"
      | none =>
        match stripTokenCI "medium".data r' with
        | some _ => some "MEDIUM"
        | none =>
          match stripTokenCI "low".data r' with
          | some _ => some "LOW"
          | none => findConfidence rest
    | none => findConfidence rest

/-- `re.search(r'REASONING:\s*(.+)', text, re.IGNORECASE | re.DOTALL)`:
the group is the rest of the text after the maximal whitespace run — except
that `(.+)` needs at least one character, so on an all-whitespace remainder
`\s*` backtracks by one, and on an empty remainder this occurrence fails
and the scan continues. -/
def findReasoning : List Char → Option (List Char)
  | [] => none
  | c :: rest =>
    match stripTokenCI "reasoning:".data (c :: rest) with
    | some r =>
      if r.isEmpty then findReasoning rest
      else
        let ws := r.takeWhile isSpaceChar
        some (r.drop (min ws.length (r.length - 1)))
    | none => findReasoning rest

/-- Join words with single spaces (`' '.join(words)`). -/
def joinSpace : List (List Char) → List Char
  | [] => []
  | [w] => w
  | w :: ws => w ++ ' ' :: joinSpace ws

/-- `parse_claude_response` (validate_wiki_articles.py lines 184-201). -/
def parse_claude_response (response_text : String) : ParsedResponse :=
  let is_match := match findVerdict response_text.data with
    | some b => b
    | none => false
  let confidence := match findConfidence response_text.data with
    | some c => c
    | none => "MEDIUM"
  let reasoning := match findReasoning response_text.data with
    | some g => String.mk (joinSpace (wordsAux (trimChars g) []))
    | none => "No reasoning provided"
  ⟨is_match, confidence, reasoning⟩

inductive LedgerTarget where
  | matchesFile
  | mismatchesFile
deriving DecidableEq, Repr

/-- The CSV row built by `write_validation_result` (lines 229-250):
gutenberg URL, cleaned reasoning, wikipedia URL, confidence, cleaned title,
possibly truncated authors, filename, book id. -/
def validation_row (book_id filename title authors confidence reasoning
    wikipedia_url : String) : List String :=
  let gutenberg_url := "https://www.gutenberg.org/ebooks/" ++ book_id
  let authors_truncated :=
    if 20 < authors.length then String.mk (authors.data.take 20) ++ "..."
    else authors
  let title_clean :=
    String.mk (title.data.map (fun c => if c = '\n' ∨ c = '\r' then ' ' else c))
  let reasoning_clean :=
    String.mk (reasoning.data.map (fun c => if c = '\n' ∨ c = '\r' then ' ' else c))
  [gutenberg_url, reasoning_clean, wikipedia_url, confidence, title_clean,
    authors_truncated, filename, book_id]

/-- The routing step of `main` (lines 419-431): a YES verdict appends the
row to the matches ledger, anything else to the mismatches ledger, always
carrying the parsed confidence and reasoning. -/
def route_result (result : ParsedResponse)
    (book_id filename _language title authors wikipedia_url : String) :
    LedgerTarget × List String :=
  if result.is_match then
    (LedgerTarget.matchesFile,
      validation_row book_id filename title authors result.confidence
        result.reasoning wikipedia_url)
  else
    (LedgerTarget.mismatchesFile,
      validation_row book_id filename title authors result.confidence
        result.reasoning wikipedia_url)

end ValidateWiki

theorem stripTokenCI_congr : ∀ (tok : List Char) {s u : List Char},
    List.Forall₂ (fun a b => asciiLowerN a = asciiLowerN b) s u →
    ((stripTokenCI tok s = none ∧ stripTokenCI tok u = none) ∨
     (∃ rs ru, stripTokenCI tok s = some rs ∧ stripTokenCI tok u = some ru ∧
       List.Forall₂ (fun a b => asciiLowerN a = asciiLowerN b) rs ru)) := by
  intro tok
  induction tok with
  | nil => intro s u h; exact Or.inr ⟨s, u, rfl, rfl, h⟩
  | cons t ts ih =>
    intro s u h
    cases h with
    | nil => exact Or.inl ⟨rfl, rfl⟩
    | @cons a b as bs hab htail =>
      by_cases hc : asciiLowerN a = t.toNat
      · have hcb : asciiLowerN b = t.toNat := hab ▸ hc
        simp only [stripTokenCI, hc, hcb, if_true]
        exact ih htail
      · have hcb : ¬asciiLowerN b = t.toNat := fun hb => hc (hab ▸ hb)
        simp only [stripTokenCI, hc, hcb, if_false]
        simp

theorem isSpaceChar_congr {a b : Char} (h : asciiLowerN a = asciiLowerN b) :
    isSpaceChar a = isSpaceChar b := by
  rw [Bool.eq_iff_iff]
  simp only [isSpaceChar, Bool.or_eq_true, beq_iff_eq]
  unfold asciiLowerN at h
  split_ifs at h <;> omega

theorem dropWhile_space_congr : ∀ {s u : List Char},
    List.Forall₂ (fun a b => asciiLowerN a = asciiLowerN b) s u →
    List.Forall₂ (fun a b => asciiLowerN a = asciiLowerN b)
      (s.dropWhile isSpaceChar) (u.dropWhile isSpaceChar) := by
  intro s u h
  induction h with
  | nil => exact .nil
  | @cons a b as bs hab htail ih =>
    rw [List.dropWhile_cons, List.dropWhile_cons, isSpaceChar_congr hab]
    cases hsp : isSpaceChar b
    · simp only [Bool.false_eq_true, if_false]
      exact .cons hab htail
    · simp only [if_true]
      exact ih

theorem findVerdict_congr : ∀ {s u : List Char},
    List.Forall₂ (fun a b => asciiLowerN a = asciiLowerN b) s u →
    ValidateWiki.findVerdict s = ValidateWiki.findVerdict u := by
  intro s u h
  induction h with
  | nil => rfl
  | @cons a b as bs hab htail ih =>
    simp only [ValidateWiki.findVerdict]
    rcases stripTokenCI_congr "verdict:".data (List.Forall₂.cons hab htail) with
      ⟨hn1, hn2⟩ | ⟨rs, ru, hs1, hs2, hrel⟩
    · simp only [hn1, hn2]
      exact ih
    · simp only [hs1, hs2]
      have hrel' := dropWhile_space_congr hrel
      rcases stripTokenCI_congr "yes".data hrel' with
        ⟨hy1, hy2⟩ | ⟨_, _, hy1, hy2, _⟩
      · simp only [hy1, hy2]
        rcases stripTokenCI_congr "no".data hrel' with
          ⟨hno1, hno2⟩ | ⟨_, _, hno1, hno2, _⟩
        · simp only [hno1, hno2]
          exact ih
        · simp only [hno1, hno2]
      · simp only [hy1, hy2]

theorem findConfidence_congr : ∀ {s u : List Char},
    List.Forall₂ (fun a b => asciiLowerN a = asciiLowerN b) s u →
    ValidateWiki.findConfidence s = ValidateWiki.findConfidence u := by
  intro s u h
  induction h with
  | nil => rfl
  | @cons a b as bs hab htail ih =>
    simp only [ValidateWiki.findConfidence]
    rcases stripTokenCI_congr "confidence:".data (List.Forall₂.cons hab htail) with
      ⟨hn1, hn2⟩ | ⟨rs, ru, hs1, hs2, hrel⟩
    · simp only [hn1, hn2]
      exact ih
    · simp only [hs1, hs2]
      have hrel' := dropWhile_space_congr hrel
      rcases stripTokenCI_congr "high".data hrel' with
        ⟨hh1, hh2⟩ | ⟨_, _, hh1, hh2, _⟩
      · simp only [hh1, hh2]
        rcases stripTokenCI_congr "medium".data hrel' with
          ⟨hm1, hm2⟩ | ⟨_, _, hm1, hm2, _⟩
        · simp only [hm1, hm2]
          rcases stripTokenCI_congr "low".data hrel' with
            ⟨hl1, hl2⟩ | ⟨_, _, hl1, hl2, _⟩
          · simp only [hl1, hl2]
            exact ih
          · simp only [hl1, hl2]
        · simp only [hm1, hm2]
      · simp only [hh1, hh2]

/-- C8: `parse_claude_response` matches the VERDICT and CONFIDENCE tokens
case-insensitively (the parse is invariant under any change of letter case
in the response text); a response in which no verdict token can be parsed
yields `is_match = false` (defaulting to NO rather than failing); in the
driver, every record whose parsed verdict is NO is routed to the mismatch
ledger with the parsed confidence in the row's confidence column; and the
concrete response "VERDICT: NO\nCONFIDENCE: LOW\nREASONING: wrong work"
parses to a NO verdict with confidence LOW and reasoning "wrong work" and
routes its record to the mismatch ledger carrying confidence LOW. -/
theorem parse_claude_response_spec :
    (∀ t u : String,
      List.Forall₂ (fun a b => asciiLowerN a = asciiLowerN b) t.data u.data →
      (ValidateWiki.parse_claude_response t).is_match =
        (ValidateWiki.parse_claude_response u).is_match ∧
      (ValidateWiki.parse_claude_response t).confidence =
        (ValidateWiki.parse_claude_response u).confidence) ∧
    (∀ t : String, ValidateWiki.findVerdict t.data = none →
      (ValidateWiki.parse_claude_response t).is_match = false) ∧
    (∀ (result : ParsedResponse)
       (book_id filename language title authors wikipedia_url : String),
      result.is_match = false →
      (ValidateWiki.route_result result book_id filename language title
          authors wikipedia_url).1 = ValidateWiki.LedgerTarget.mismatchesFile ∧
      (ValidateWiki.route_result result book_id filename language title
          authors wikipedia_url).2.get? 3 = some result.confidence) ∧
    (ValidateWiki.parse_claude_response
        "VERDICT: NO\nCONFIDENCE: LOW\nREASONING: wrong work"
      = ⟨false, "LOW", "wrong work"⟩ ∧
     (ValidateWiki.route_result
        (ValidateWiki.parse_claude_response
          "VERDICT: NO\nCONFIDENCE: LOW\nREASONING: wrong work")
        "100" "100_en.txt" "en" "Title" "Author"
        "https://en.wikipedia.org/wiki/X").1
      = ValidateWiki.LedgerTarget.mismatchesFile ∧
     (ValidateWiki.route_result
        (ValidateWiki.parse_claude_response
          "VERDICT: NO\nCONFIDENCE: LOW\nREASONING: wrong work")
        "100" "100_en.txt" "en" "Title" "Author"
        "https://en.wikipedia.org/wiki/X").2.get? 3
      = some "LOW") := by
  refine ⟨?_, ?_, ?_, ?_, ?_, ?_⟩
  · intro t u h
    constructor
    · simp only [ValidateWiki.parse_claude_response, findVerdict_congr h]
    · simp only [ValidateWiki.parse_claude_response, findConfidence_congr h]
  · intro t h
    simp only [ValidateWiki.parse_claude_response, h]
  · rintro ⟨m, conf, reas⟩ book_id filename language title authors wikipedia_url h
    have hm : m = false := h
    subst hm
    exact ⟨rfl, rfl⟩
  · decide
  · decide
  · decide

theorem parse_claude_response_spec_witness :
    ((ValidateWiki.parse_claude_response "Verdict: Yes").is_match =
       (ValidateWiki.parse_claude_response "VERDICT: YES").is_match ∧
     (ValidateWiki.parse_claude_response "Verdict: Yes").confidence =
       (ValidateWiki.parse_claude_response "VERDICT: YES").confidence) ∧
    (ValidateWiki.parse_claude_response "no tokens here").is_match = false ∧
    ((ValidateWiki.route_result ⟨false, "LOW", "wrong work"⟩ "100"
        "100_en.txt" "en" "Title" "Author" "W").1
       = ValidateWiki.LedgerTarget.mismatchesFile ∧
     (ValidateWiki.route_result ⟨false, "LOW", "wrong work"⟩ "100"
        "100_en.txt" "en" "Title" "Author" "W").2.get? 3 = some "LOW") :=
  ⟨parse_claude_response_spec.1 "Verdict: Yes" "VERDICT: YES" (by decide),
   parse_claude_response_spec.2.1 "no tokens here" (by decide),
   parse_claude_response_spec.2.2.1 ⟨false, "LOW", "wrong work"⟩ "100"
     "100_en.txt" "en" "Title" "Author" "W" rfl⟩
